import Mathlib

/-!
# Verification of the `do-more` task loop

A shallow embedding, in Lean 4, of the core of the `do-more` repository:

* the data model (`Task`, `Config`) from `config.go` / `internal/config`
  (the `internal/config` source mirrors the root `config.go`, with the
  per-task `Provider` override pinned down by `internal/config/config_test.go`);
* the gate runner `RunGates` from `gate.go`;
* the prompt builder `BuildPrompt` from `prompt.go`;
* the loop engine `RunLoop` from `internal/loop/loop.go`;
* the event hub and the log-message classifier from `internal/server/events.go`;
* `nextTaskID`, `handleLoopStart` and the skip mutation from
  `internal/server/server.go`.

External effects are made explicit: provider invocation and shell execution of a
gate command are oracle functions passed in as parameters, file persistence is
modelled by tracking the sequence of saved configs, and HTTP handlers become
pure functions from the request-relevant state to a response description.
Machine integers (`int` in Go) are modelled by `Int`; values in this code stay
far from the 64-bit range.
-/

namespace DoMore

/-! ## Data model (`config.go`, `internal/config`) -/

/-- Task status (the `StatusPending` … `StatusFailed` string constants of
`config.go`, modelled as an enumeration). -/
inductive Status where
  | pending
  | inProgress
  | done
  | failed
deriving DecidableEq, Repr

/-- A task (`Task` of `config.go`, plus the `Provider` override field of
`internal/config`, pinned by `TestProviderRoundTrip` / `TestEffectiveProvider`). -/
structure Task where
  id : String
  title : String
  description : String
  status : Status
  learnings : String
  provider : String
deriving DecidableEq, Repr

/-- The persisted aggregate (`Config` of `config.go`).  `maxIterations` is a Go
`int`, hence `Int`. -/
structure Config where
  name : String
  provider : String
  branch : String
  gates : List String
  maxIterations : Int
  tasks : List Task
deriving DecidableEq, Repr

/-- Modelled from the spec: `Task.EffectiveProvider` lives in the missing
`internal/config/config.go`; the spec says "the task's own override if
non-empty, else the run's default provider name", and
`TestEffectiveProvider` in `internal/config/config_test.go` confirms exactly
this behaviour. -/
def Task.EffectiveProvider (t : Task) (fallback : String) : String :=
  if t.provider ≠ "" then t.provider else fallback

/-- First index of a task satisfying `p` (the scan order of the Go loops that
walk `cfg.Tasks`). -/
def firstIdxWhere (p : Task → Bool) : List Task → Option Nat
  | [] => none
  | t :: ts => if p t then some 0 else (firstIdxWhere p ts).map (· + 1)

/-- Boolean "this task is pending". -/
def Task.isPending (t : Task) : Bool := decide (t.status = Status.pending)

/-- `Config.NextPendingTask` of `config.go`: the first task with status
pending, here as its index so that the loop can write the task back. -/
def Config.NextPendingTaskIdx (c : Config) : Option Nat :=
  firstIdxWhere Task.isPending c.tasks

/-- `Config.NextPendingTask` of `config.go`, as the task value (used by
`handleLoopStart`, which only needs existence). -/
def Config.NextPendingTask (c : Config) : Option Task :=
  c.tasks.find? Task.isPending

/-- Number of pending tasks; an upper bound on the number of passes the engine
makes, used as fuel for `runLoopAux`. -/
def pendingCount (c : Config) : Nat :=
  c.tasks.countP Task.isPending

/-! ## Gates (`gate.go`) -/

/-- One gate's outcome (`GateResult` of `gate.go`). -/
structure GateResult where
  command : String
  passed : Bool
  output : String
deriving DecidableEq, Repr

/-- Oracle for `sh -c <command>` in a working directory: returns
(exited-without-error, combined output).  `RunGates` records `Passed = (err == nil)`. -/
def GateExec := String → String → Bool × String

/-- `RunGates` of `gate.go`: runs every command, records pass/fail per command,
and — by construction, its single `return` statement — always returns a `nil`
error (the second component). -/
def RunGates (exec : GateExec) (gates : List String) (workDir : String) :
    List GateResult × Option String :=
  (gates.map (fun g =>
      let r := exec g workDir
      { command := g, passed := r.1, output := r.2 }),
   none)

/-- `AllGatesPassed` of `gate.go`. -/
def AllGatesPassed (results : List GateResult) : Bool :=
  results.all (·.passed)

/-- `GateFailureSummary` of `gate.go`. -/
def GateFailureSummary (results : List GateResult) : String :=
  results.foldl
    (fun acc r =>
      if r.passed then acc else acc ++ "FAIL: " ++ r.command ++ "\n" ++ r.output ++ "\n")
    ""

/-! ## Prompt (`prompt.go`) -/

/-- `BuildPrompt` of `prompt.go` (the `internal/prompt` package mirrors the
root `prompt.go`; `prompt_test.go` pins the section layout). -/
def BuildPrompt (t : Task) (gates : List String) (gateOutput : String) : String :=
  "You are working on the following task:\n\n" ++
  "## Task: " ++ t.title ++ "\n" ++ t.description ++ "\n" ++
  (if t.learnings ≠ "" then "\n## Previous Learnings\n" ++ t.learnings ++ "\n" else "") ++
  (if gateOutput ≠ "" then "\n## Gate Failures (previous attempt)\n" ++ gateOutput ++ "\n" else "") ++
  (if gates.isEmpty then ""
   else
     "\n## Instructions\n- Work in the current directory\n- Make the minimal changes needed\n- When done, the following gates will be checked:\n" ++
     String.join (gates.map (fun g => "  - " ++ g ++ "\n")))

/-! ## Providers (`internal/provider/provider.go`) -/

/-- A provider: `Run` takes (prompt, workDir) and returns (output, error);
`none` error means success, mirroring the Go `(string, error)` pair. -/
structure Provider where
  name : String
  run : String → String → String × Option String

/-- The provider registry, as the lookup function of the Go map
(`ProviderRegistry.Get`). -/
def Registry := String → Option Provider

/-- Models `fmt.Sprintf("%q", s)` for the provider names that occur here
(names without characters that `%q` would escape). -/
def goQuote (s : String) : String := "\"" ++ s ++ "\""

/-! ## The loop engine (`internal/loop/loop.go`) -/

/-- The per-task iteration loop of `RunLoop` (`loop.go` lines 58–108).

`fuel` counts the iterations still allowed: the caller passes
`fuel = maxIter.toNat` together with `iter = 1`, so that along the recursion
`fuel = (maxIter + 1 - iter).toNat`, and `fuel = 0` exactly when the Go
condition `iteration <= cfg.MaxIterations` fails.  The result carries the
final task together with the number of iterations that actually ran; a
`.error` is the run-aborting `running gates: …` error. -/
def runIters (p : Provider) (gates : List String)
    (gateRunner : List String → String → List GateResult × Option String)
    (workDir : String) (maxIter : Int) :
    Nat → Int → String → Task → Except String (Task × Nat)
  | 0, _, _, t => .ok (t, 0)
  | fuel + 1, iter, gateOutput, t =>
    let pr := BuildPrompt t gates gateOutput
    match p.run pr workDir with
    | (output, some e) =>
      if iter ≥ maxIter then
        .ok ({ t with
               status := Status.failed,
               learnings := t.learnings ++ "\nFailed after " ++ toString iter ++
                 " iterations. Last error: " ++ e }, 1)
      else
        (runIters p gates gateRunner workDir maxIter fuel (iter + 1)
            ("Provider error: " ++ e ++ "\nOutput: " ++ output) t).map
          (fun r => (r.1, r.2 + 1))
    | (_, none) =>
      let gr := gateRunner gates workDir
      match gr.2 with
      | some e => .error ("running gates: " ++ e)
      | none =>
        if AllGatesPassed gr.1 then
          .ok ({ t with status := Status.done }, 1)
        else if iter ≥ maxIter then
          .ok ({ t with
                 status := Status.failed,
                 learnings := t.learnings ++ "\nFailed after " ++ toString iter ++
                   " iterations. Gates did not pass." }, 1)
        else
          (runIters p gates gateRunner workDir maxIter fuel (iter + 1)
              (GateFailureSummary gr.1) t).map
            (fun r => (r.1, r.2 + 1))

/-- The external collaborators `RunLoop` consumes. -/
structure LoopParams where
  registry : Registry
  defaultName : String
  gateRunner : List String → String → List GateResult × Option String
  workDir : String

/-- Processing of one selected task (`loop.go` lines 42–108), starting from the
task already marked in-progress (line 37): resolve the effective provider;
unknown provider means immediate failure with a learning line and zero
iterations; otherwise run the iteration loop. -/
def processOne (P : LoopParams) (gates : List String) (maxIter : Int)
    (t : Task) : Except String (Task × Nat) :=
  let eff := t.EffectiveProvider P.defaultName
  match P.registry eff with
  | none =>
    .ok ({ t with
           status := Status.failed,
           learnings := t.learnings ++ "\nUnknown provider: " ++ goQuote eff }, 0)
  | some p => runIters p gates P.gateRunner P.workDir maxIter maxIter.toNat 1 "" t

/-- Result of a run: the in-memory config when `RunLoop` returns, the sequence
of configs saved to disk, which task indices were processed and how many
iterations each consumed (instrumentation mirroring the engine's per-iteration
log lines), and the run-level error, if any. -/
structure RunResult where
  cfg : Config
  saves : List Config
  processed : List (Nat × Nat)
  err : Option String
deriving Repr

/-- The outer loop of `RunLoop` (`loop.go` lines 31–115).  Each pass: pick the
first pending task, mark it in-progress and persist, resolve and run it,
persist again, repeat.  `fuel` bounds the number of passes; since each pass
leaves its task non-pending (`processed_not_pending` below),
`fuel = pendingCount cfg` makes the fuel-out branch unreachable
(`runLoopAux_fuel_irrelevant`). -/
def runLoopAux (P : LoopParams) :
    Nat → Config → List Config → List (Nat × Nat) → RunResult
  | 0, cfg, saves, processed => ⟨cfg, saves, processed, none⟩
  | fuel + 1, cfg, saves, processed =>
    match cfg.NextPendingTaskIdx with
    | none => ⟨cfg, saves, processed, none⟩
    | some i =>
      match cfg.tasks[i]? with
      | none => ⟨cfg, saves, processed, none⟩
      | some t =>
        let t1 := { t with status := Status.inProgress }
        let cfg1 := { cfg with tasks := cfg.tasks.set i t1 }
        let saves1 := saves ++ [cfg1]
        match processOne P cfg.gates cfg.maxIterations t1 with
        | .error e => ⟨cfg1, saves1, processed, some e⟩
        | .ok (t2, n) =>
          let cfg2 := { cfg1 with tasks := cfg1.tasks.set i t2 }
          runLoopAux P fuel cfg2 (saves1 ++ [cfg2]) (processed ++ [(i, n)])

/-- `RunLoop` of `internal/loop/loop.go`.  Loading the config and every save
succeed in the model (persistence is an external collaborator); the run-level
error therefore comes only from the gate runner. -/
def RunLoop (P : LoopParams) (cfg : Config) : RunResult :=
  runLoopAux P (pendingCount cfg) cfg [] []

/-! ## Basic lemmas about the task-selection scan -/

theorem firstIdxWhere_some {p : Task → Bool} :
    ∀ {l : List Task} {i : Nat}, firstIdxWhere p l = some i →
      ∃ x, l[i]? = some x ∧ p x = true := by
  intro l
  induction l with
  | nil => intro i h; simp [firstIdxWhere] at h
  | cons t ts ih =>
    intro i h
    by_cases hp : p t
    · simp [firstIdxWhere, hp] at h
      exact h ▸ ⟨t, by simp, hp⟩
    · simp [firstIdxWhere, hp] at h
      obtain ⟨i', h1, h2⟩ := h
      obtain ⟨x, hx, hpx⟩ := ih h1
      exact h2 ▸ ⟨x, by simpa using hx, hpx⟩

theorem firstIdxWhere_none {p : Task → Bool} :
    ∀ {l : List Task}, firstIdxWhere p l = none → ∀ x ∈ l, p x = false := by
  intro l
  induction l with
  | nil => intro _ x hx; simp at hx
  | cons t ts ih =>
    intro h x hx
    by_cases hp : p t
    · simp [firstIdxWhere, hp] at h
    · simp [firstIdxWhere, hp] at h
      rcases List.mem_cons.mp hx with rfl | hmem
      · simpa using hp
      · exact ih h x hmem

theorem firstIdxWhere_none_of_all {p : Task → Bool} :
    ∀ {l : List Task}, (∀ x ∈ l, p x = false) → firstIdxWhere p l = none := by
  intro l
  induction l with
  | nil => intro _; rfl
  | cons t ts ih =>
    intro h
    have hp : p t = false := h t (by simp)
    simp [firstIdxWhere, hp]
    exact ih fun x hx => h x (List.mem_cons_of_mem _ hx)

theorem countP_set_lt {α : Type} (p : α → Bool) :
    ∀ (l : List α) (i : Nat) (x a : α), l[i]? = some x → p x = true → p a = false →
      (l.set i a).countP p < l.countP p := by
  intro l
  induction l with
  | nil => intro i x a h; simp at h
  | cons y ys ih =>
    intro i x a hx hpx hpa
    cases i with
    | zero =>
      simp at hx
      subst hx
      simp [List.countP_cons, hpx, hpa]
    | succ n =>
      simp at hx
      have hlt := ih n x a hx hpx hpa
      simp [List.countP_cons]
      omega

theorem pendingCount_zero_of_none {c : Config} (h : c.NextPendingTaskIdx = none) :
    pendingCount c = 0 := by
  have hall := firstIdxWhere_none h
  simpa [pendingCount, List.countP_eq_zero] using hall

theorem nextPendingIdx_none_of_zero {c : Config} (h : pendingCount c = 0) :
    c.NextPendingTaskIdx = none := by
  apply firstIdxWhere_none_of_all
  intro x hx
  have := (List.countP_eq_zero.mp h) x hx
  simpa using this

/-! ## Lemmas about the per-task iteration loop -/

theorem runIters_ok_shape (p : Provider) (gates : List String)
    (gr : List String → String → List GateResult × Option String)
    (wd : String) (maxIter : Int) :
    ∀ (fuel : Nat) (iter : Int) (go : String) (t t' : Task) (n : Nat),
      runIters p gates gr wd maxIter fuel iter go t = .ok (t', n) →
      (∃ s, t'.learnings = t.learnings ++ s) ∧
      (t'.status = t.status ∨ t'.status = Status.done ∨ t'.status = Status.failed) ∧
      t'.id = t.id ∧ t'.title = t.title ∧
      t'.description = t.description ∧ t'.provider = t.provider := by
  intro fuel
  induction fuel with
  | zero =>
    intro iter go t t' n h
    simp [runIters] at h
    obtain ⟨rfl, -⟩ := h
    exact ⟨⟨"", by simp⟩, Or.inl rfl, rfl, rfl, rfl, rfl⟩
  | succ fuel ih =>
    intro iter go t t' n h
    simp only [runIters] at h
    rcases hr : p.run (BuildPrompt t gates go) wd with ⟨output, oerr⟩
    rw [hr] at h
    cases oerr with
    | some e =>
      simp only at h
      by_cases hi : iter ≥ maxIter
      · rw [if_pos hi] at h
        simp at h
        obtain ⟨rfl, -⟩ := h
        exact ⟨⟨"\nFailed after " ++ toString iter ++ " iterations. Last error: " ++ e,
          by simp [String.append_assoc]⟩, Or.inr (Or.inr rfl), rfl, rfl, rfl, rfl⟩
      · rw [if_neg hi] at h
        rcases hrec : runIters p gates gr wd maxIter fuel (iter + 1)
            ("Provider error: " ++ e ++ "\nOutput: " ++ output) t with e' | ⟨t'', n''⟩
        · rw [hrec] at h; simp [Except.map] at h
        · rw [hrec] at h
          simp [Except.map] at h
          obtain ⟨h1, -⟩ := h
          exact h1 ▸ ih (iter + 1) _ t t'' n'' hrec
    | none =>
      simp only at h
      rcases hg : gr gates wd with ⟨rs, gerr⟩
      rw [hg] at h
      cases gerr with
      | some e => simp at h
      | none =>
        simp only at h
        by_cases hap : AllGatesPassed rs
        · rw [if_pos hap] at h
          simp at h
          obtain ⟨rfl, -⟩ := h
          exact ⟨⟨"", by simp⟩, Or.inr (Or.inl rfl), rfl, rfl, rfl, rfl⟩
        · rw [if_neg hap] at h
          by_cases hi : iter ≥ maxIter
          · rw [if_pos hi] at h
            simp at h
            obtain ⟨rfl, -⟩ := h
            exact ⟨⟨"\nFailed after " ++ toString iter ++ " iterations. Gates did not pass.",
              by simp [String.append_assoc]⟩, Or.inr (Or.inr rfl), rfl, rfl, rfl, rfl⟩
          · rw [if_neg hi] at h
            rcases hrec : runIters p gates gr wd maxIter fuel (iter + 1)
                (GateFailureSummary rs) t with e' | ⟨t'', n''⟩
            · rw [hrec] at h; simp [Except.map] at h
            · rw [hrec] at h
              simp [Except.map] at h
              obtain ⟨h1, -⟩ := h
              exact h1 ▸ ih (iter + 1) _ t t'' n'' hrec

theorem runIters_ne_error (p : Provider) (gates : List String)
    (gr : List String → String → List GateResult × Option String)
    (wd : String) (maxIter : Int)
    (Hgr : ∀ g w, (gr g w).2 = none) :
    ∀ (fuel : Nat) (iter : Int) (go : String) (t : Task) (e : String),
      runIters p gates gr wd maxIter fuel iter go t ≠ .error e := by
  intro fuel
  induction fuel with
  | zero => intro iter go t e h; simp [runIters] at h
  | succ fuel ih =>
    intro iter go t e h
    simp only [runIters] at h
    rcases hr : p.run (BuildPrompt t gates go) wd with ⟨output, oerr⟩
    rw [hr] at h
    cases oerr with
    | some e' =>
      simp only at h
      by_cases hi : iter ≥ maxIter
      · rw [if_pos hi] at h; simp at h
      · rw [if_neg hi] at h
        rcases hrec : runIters p gates gr wd maxIter fuel (iter + 1)
            ("Provider error: " ++ e' ++ "\nOutput: " ++ output) t with e'' | r
        · exact ih _ _ _ _ hrec
        · rw [hrec] at h; simp [Except.map] at h
    | none =>
      rcases hg : gr gates wd with ⟨rs, gerr⟩
      have hge : gerr = none := by
        have := Hgr gates wd; rw [hg] at this; simpa using this
      subst hge
      rw [hg] at h
      simp only at h
      by_cases hap : AllGatesPassed rs
      · rw [if_pos hap] at h; simp at h
      · rw [if_neg hap] at h
        by_cases hi : iter ≥ maxIter
        · rw [if_pos hi] at h; simp at h
        · rw [if_neg hi] at h
          rcases hrec : runIters p gates gr wd maxIter fuel (iter + 1)
              (GateFailureSummary rs) t with e'' | r
          · exact ih _ _ _ _ hrec
          · rw [hrec] at h; simp [Except.map] at h

theorem runIters_terminal (p : Provider) (gates : List String)
    (gr : List String → String → List GateResult × Option String)
    (wd : String) (maxIter : Int) :
    ∀ (fuel : Nat) (iter : Int) (go : String) (t t' : Task) (n : Nat),
      iter + (fuel : Int) = maxIter + 1 → 1 ≤ fuel →
      runIters p gates gr wd maxIter fuel iter go t = .ok (t', n) →
      t'.status = Status.done ∨ t'.status = Status.failed := by
  intro fuel
  induction fuel with
  | zero => intro iter go t t' n _ hf; omega
  | succ fuel ih =>
    intro iter go t t' n harith _ h
    simp only [runIters] at h
    rcases hr : p.run (BuildPrompt t gates go) wd with ⟨output, oerr⟩
    rw [hr] at h
    cases oerr with
    | some e =>
      simp only at h
      by_cases hi : iter ≥ maxIter
      · rw [if_pos hi] at h
        simp at h
        obtain ⟨rfl, -⟩ := h
        exact Or.inr rfl
      · rw [if_neg hi] at h
        rcases hrec : runIters p gates gr wd maxIter fuel (iter + 1)
            ("Provider error: " ++ e ++ "\nOutput: " ++ output) t with e'' | ⟨t'', n''⟩
        · rw [hrec] at h; simp [Except.map] at h
        · rw [hrec] at h
          simp [Except.map] at h
          obtain ⟨h1, -⟩ := h
          exact h1 ▸ ih (iter + 1) _ t t'' n'' (by omega) (by omega) hrec
    | none =>
      rcases hg : gr gates wd with ⟨rs, gerr⟩
      rw [hg] at h
      cases gerr with
      | some e => simp at h
      | none =>
        simp only at h
        by_cases hap : AllGatesPassed rs
        · rw [if_pos hap] at h
          simp at h
          obtain ⟨rfl, -⟩ := h
          exact Or.inl rfl
        · rw [if_neg hap] at h
          by_cases hi : iter ≥ maxIter
          · rw [if_pos hi] at h
            simp at h
            obtain ⟨rfl, -⟩ := h
            exact Or.inr rfl
          · rw [if_neg hi] at h
            rcases hrec : runIters p gates gr wd maxIter fuel (iter + 1)
                (GateFailureSummary rs) t with e'' | ⟨t'', n''⟩
            · rw [hrec] at h; simp [Except.map] at h
            · rw [hrec] at h
              simp [Except.map] at h
              obtain ⟨h1, -⟩ := h
              exact h1 ▸ ih (iter + 1) _ t t'' n'' (by omega) (by omega) hrec

theorem runIters_gates_fail (p : Provider) (gates : List String)
    (gr : List String → String → List GateResult × Option String)
    (wd : String) (maxIter : Int) (rs : List GateResult)
    (Hp : ∀ pr w, (p.run pr w).2 = none)
    (Hgr : gr gates wd = (rs, none))
    (Hfail : AllGatesPassed rs = false) :
    ∀ (fuel : Nat) (iter : Int) (go : String) (t : Task),
      iter + (fuel : Int) = maxIter + 1 → 1 ≤ fuel →
      runIters p gates gr wd maxIter fuel iter go t =
        .ok ({ t with
               status := Status.failed,
               learnings := t.learnings ++ "\nFailed after " ++ toString maxIter ++
                 " iterations. Gates did not pass." }, fuel) := by
  intro fuel
  induction fuel with
  | zero => intro iter go t _ hf; omega
  | succ fuel ih =>
    intro iter go t harith _
    simp only [runIters]
    rcases hr : p.run (BuildPrompt t gates go) wd with ⟨output, oerr⟩
    have hoe : oerr = none := by
      have := Hp (BuildPrompt t gates go) wd; rw [hr] at this; simpa using this
    subst hoe
    simp only
    rw [Hgr]
    simp only [Hfail, Bool.false_eq_true, if_false]
    by_cases hi : iter ≥ maxIter
    · have hf0 : fuel = 0 := by omega
      have hieq : iter = maxIter := by omega
      subst hf0
      subst hieq
      rw [if_pos hi]
    · rw [if_neg hi]
      have hrec := ih (iter + 1) (GateFailureSummary rs) t (by omega) (by omega)
      rw [hrec]
      simp [Except.map]

theorem runIters_all_pass (p : Provider) (gates : List String)
    (gr : List String → String → List GateResult × Option String)
    (wd : String) (maxIter : Int) (rs : List GateResult)
    (Hp : ∀ pr w, (p.run pr w).2 = none)
    (Hgr : gr gates wd = (rs, none))
    (Hpass : AllGatesPassed rs = true) :
    ∀ (fuel : Nat) (iter : Int) (go : String) (t : Task), 1 ≤ fuel →
      runIters p gates gr wd maxIter fuel iter go t =
        .ok ({ t with status := Status.done }, 1) := by
  intro fuel
  cases fuel with
  | zero => intro iter go t hf; omega
  | succ fuel =>
    intro iter go t _
    simp only [runIters]
    rcases hr : p.run (BuildPrompt t gates go) wd with ⟨output, oerr⟩
    have hoe : oerr = none := by
      have := Hp (BuildPrompt t gates go) wd; rw [hr] at this; simpa using this
    subst hoe
    simp only
    rw [Hgr]
    simp [Hpass]

theorem runIters_no_done (p : Provider) (gates : List String)
    (gr : List String → String → List GateResult × Option String)
    (wd : String) (maxIter : Int) (rs : List GateResult)
    (Hgr : gr gates wd = (rs, none))
    (Hfail : AllGatesPassed rs = false) :
    ∀ (fuel : Nat) (iter : Int) (go : String) (t t' : Task) (n : Nat),
      t.status ≠ Status.done →
      runIters p gates gr wd maxIter fuel iter go t = .ok (t', n) →
      t'.status ≠ Status.done := by
  intro fuel
  induction fuel with
  | zero =>
    intro iter go t t' n ht h
    simp [runIters] at h
    obtain ⟨rfl, -⟩ := h
    exact ht
  | succ fuel ih =>
    intro iter go t t' n ht h
    simp only [runIters] at h
    rcases hr : p.run (BuildPrompt t gates go) wd with ⟨output, oerr⟩
    rw [hr] at h
    cases oerr with
    | some e =>
      simp only at h
      by_cases hi : iter ≥ maxIter
      · rw [if_pos hi] at h
        simp at h
        obtain ⟨rfl, -⟩ := h
        simp
      · rw [if_neg hi] at h
        rcases hrec : runIters p gates gr wd maxIter fuel (iter + 1)
            ("Provider error: " ++ e ++ "\nOutput: " ++ output) t with e'' | ⟨t'', n''⟩
        · rw [hrec] at h; simp [Except.map] at h
        · rw [hrec] at h
          simp [Except.map] at h
          obtain ⟨h1, -⟩ := h
          exact h1 ▸ ih (iter + 1) _ t t'' n'' ht hrec
    | none =>
      rw [Hgr] at h
      simp only [Hfail, Bool.false_eq_true, if_false] at h
      by_cases hi : iter ≥ maxIter
      · rw [if_pos hi] at h
        simp at h
        obtain ⟨rfl, -⟩ := h
        simp
      · rw [if_neg hi] at h
        rcases hrec : runIters p gates gr wd maxIter fuel (iter + 1)
            (GateFailureSummary rs) t with e'' | ⟨t'', n''⟩
        · rw [hrec] at h; simp [Except.map] at h
        · rw [hrec] at h
          simp [Except.map] at h
          obtain ⟨h1, -⟩ := h
          exact h1 ▸ ih (iter + 1) _ t t'' n'' ht hrec

/-! ## Lemmas about processing one task -/

theorem processOne_unknown (P : LoopParams) (gates : List String) (maxIter : Int)
    (t : Task) (h : P.registry (t.EffectiveProvider P.defaultName) = none) :
    processOne P gates maxIter t =
      .ok ({ t with
             status := Status.failed,
             learnings := t.learnings ++ "\nUnknown provider: " ++
               goQuote (t.EffectiveProvider P.defaultName) }, 0) := by
  simp [processOne, h]

theorem processOne_shape (P : LoopParams) (gates : List String) (maxIter : Int)
    (t t' : Task) (n : Nat) (h : processOne P gates maxIter t = .ok (t', n)) :
    (∃ s, t'.learnings = t.learnings ++ s) ∧
    (t'.status = t.status ∨ t'.status = Status.done ∨ t'.status = Status.failed) ∧
    t'.id = t.id ∧ t'.title = t.title ∧
    t'.description = t.description ∧ t'.provider = t.provider := by
  simp only [processOne] at h
  rcases hreg : P.registry (t.EffectiveProvider P.defaultName) with - | p
  · rw [hreg] at h
    simp at h
    obtain ⟨rfl, -⟩ := h
    exact ⟨⟨"\nUnknown provider: " ++ goQuote (t.EffectiveProvider P.defaultName),
      by simp [String.append_assoc]⟩, Or.inr (Or.inr rfl), rfl, rfl, rfl, rfl⟩
  · rw [hreg] at h
    exact runIters_ok_shape p gates P.gateRunner P.workDir maxIter _ _ _ _ _ _ h

theorem processOne_ne_error (P : LoopParams) (gates : List String) (maxIter : Int)
    (t : Task) (Hgr : ∀ g w, (P.gateRunner g w).2 = none) (e : String) :
    processOne P gates maxIter t ≠ .error e := by
  simp only [processOne]
  rcases hreg : P.registry (t.EffectiveProvider P.defaultName) with - | p
  · simp
  · exact runIters_ne_error p gates P.gateRunner P.workDir maxIter Hgr _ _ _ _ _

theorem processOne_not_pending (P : LoopParams) (gates : List String) (maxIter : Int)
    (t t' : Task) (n : Nat) (ht : t.status ≠ Status.pending)
    (h : processOne P gates maxIter t = .ok (t', n)) :
    t'.status ≠ Status.pending := by
  rcases (processOne_shape P gates maxIter t t' n h).2.1 with heq | heq | heq <;>
    simp [heq, ht]

theorem processOne_terminal (P : LoopParams) (gates : List String) (maxIter : Int)
    (t t' : Task) (n : Nat) (hmi : 1 ≤ maxIter)
    (h : processOne P gates maxIter t = .ok (t', n)) :
    t'.status = Status.done ∨ t'.status = Status.failed := by
  simp only [processOne] at h
  rcases hreg : P.registry (t.EffectiveProvider P.defaultName) with - | p
  · rw [hreg] at h
    simp at h
    obtain ⟨rfl, -⟩ := h
    exact Or.inr rfl
  · rw [hreg] at h
    exact runIters_terminal p gates P.gateRunner P.workDir maxIter maxIter.toNat 1 "" t t' n
      (by omega) (by omega) h

/-! ## Lemmas about the outer loop -/

theorem runLoopAux_extends (P : LoopParams) :
    ∀ (fuel : Nat) (cfg : Config) (saves : List Config) (processed : List (Nat × Nat)),
      (∃ tl, (runLoopAux P fuel cfg saves processed).processed = processed ++ tl) ∧
      (∃ tl, (runLoopAux P fuel cfg saves processed).saves = saves ++ tl) := by
  intro fuel
  induction fuel with
  | zero => intro cfg saves processed; exact ⟨⟨[], by simp [runLoopAux]⟩, ⟨[], by simp [runLoopAux]⟩⟩
  | succ fuel ih =>
    intro cfg saves processed
    simp only [runLoopAux]
    rcases hidx : cfg.NextPendingTaskIdx with - | i
    · simp only [hidx]
      exact ⟨⟨[], by simp⟩, ⟨[], by simp⟩⟩
    · simp only [hidx]
      rcases hti : cfg.tasks[i]? with - | t
      · simp only [hti]
        exact ⟨⟨[], by simp⟩, ⟨[], by simp⟩⟩
      · simp only [hti]
        rcases hpo : processOne P cfg.gates cfg.maxIterations
            { t with status := Status.inProgress } with e | ⟨t2, n2⟩
        · simp only [hpo]
          exact ⟨⟨[], by simp⟩,
            ⟨[{ cfg with tasks := cfg.tasks.set i { t with status := Status.inProgress } }],
              by simp⟩⟩
        · simp only [hpo]
          obtain ⟨⟨tl1, htl1⟩, ⟨tl2, htl2⟩⟩ := ih _ _ _
          constructor
          · rw [htl1, List.append_assoc]
            exact ⟨_, rfl⟩
          · rw [htl2, List.append_assoc, List.append_assoc]
            exact ⟨_, rfl⟩

/-- Everything the claims need about a completed run, relative to the starting
config: no run-level error, same number of tasks and same settings, no pending
task left, tasks that were not pending untouched, and every initially-pending
task replaced by the outcome of `processOne` on its in-progress version, with
its iteration count recorded in `processed` and its final state present in a
persisted snapshot. -/
def LoopSpec (P : LoopParams) (cfg : Config) (r : RunResult) : Prop :=
  r.err = none ∧
  r.cfg.tasks.length = cfg.tasks.length ∧
  r.cfg.gates = cfg.gates ∧
  r.cfg.maxIterations = cfg.maxIterations ∧
  pendingCount r.cfg = 0 ∧
  ∀ (j : Nat) (t : Task), cfg.tasks[j]? = some t →
    (t.status ≠ Status.pending → r.cfg.tasks[j]? = some t) ∧
    (t.status = Status.pending →
      ∃ t' n, r.cfg.tasks[j]? = some t' ∧
        processOne P cfg.gates cfg.maxIterations { t with status := Status.inProgress } =
          .ok (t', n) ∧
        (j, n) ∈ r.processed ∧ ∃ c ∈ r.saves, c.tasks[j]? = some t')

theorem runLoopAux_char (P : LoopParams)
    (Htotal : ∀ g w, (P.gateRunner g w).2 = none) :
    ∀ (fuel : Nat) (cfg : Config) (saves : List Config) (processed : List (Nat × Nat)),
      pendingCount cfg ≤ fuel →
      LoopSpec P cfg (runLoopAux P fuel cfg saves processed) := by
  intro fuel
  induction fuel with
  | zero =>
    intro cfg saves processed hf
    have h0 : pendingCount cfg = 0 := Nat.le_zero.mp hf
    simp only [runLoopAux]
    refine ⟨rfl, rfl, rfl, rfl, h0, ?_⟩
    intro j t hj
    refine ⟨fun _ => hj, fun hp => ?_⟩
    have hcp := List.countP_eq_zero.mp h0 t (List.getElem?_mem hj)
    simp [Task.isPending, hp] at hcp
  | succ fuel ih =>
    intro cfg saves processed hf
    simp only [runLoopAux]
    rcases hidx : cfg.NextPendingTaskIdx with - | i
    · simp only [hidx]
      have h0 : pendingCount cfg = 0 := pendingCount_zero_of_none hidx
      refine ⟨rfl, rfl, rfl, rfl, h0, ?_⟩
      intro j t hj
      refine ⟨fun _ => hj, fun hp => ?_⟩
      have hcp := List.countP_eq_zero.mp h0 t (List.getElem?_mem hj)
      simp [Task.isPending, hp] at hcp
    · simp only [hidx]
      obtain ⟨t0, ht0, hp0raw⟩ :=
        firstIdxWhere_some (by simpa [Config.NextPendingTaskIdx] using hidx)
      have hp0 : t0.status = Status.pending := by
        simpa [Task.isPending] using hp0raw
      have hibound : i < cfg.tasks.length := (List.getElem?_eq_some.mp ht0).1
      simp only [ht0]
      rcases hpo : processOne P cfg.gates cfg.maxIterations
          { t0 with status := Status.inProgress } with e | ⟨t2, n2⟩
      · exact absurd hpo (processOne_ne_error P _ _ _ Htotal e)
      · simp only [hpo]
        rw [List.set_set]
        have ht2np : t2.status ≠ Status.pending :=
          processOne_not_pending P _ _ _ _ _ (by simp) hpo
        have hip : Task.isPending t2 = false := by
          simp [Task.isPending, ht2np]
        have hlt : pendingCount { cfg with tasks := cfg.tasks.set i t2 } < pendingCount cfg := by
          simpa [pendingCount] using
            countP_set_lt Task.isPending cfg.tasks i t0 t2 ht0 hp0raw hip
        have hfle : pendingCount { cfg with tasks := cfg.tasks.set i t2 } ≤ fuel := by omega
        have IH := ih { cfg with tasks := cfg.tasks.set i t2 }
          (saves ++ [{ cfg with tasks := cfg.tasks.set i { t0 with status := Status.inProgress } }]
            ++ [{ cfg with tasks := cfg.tasks.set i t2 }])
          (processed ++ [(i, n2)]) hfle
        obtain ⟨herr, hlen, hgates, hmaxi, hpend, hjs⟩ := IH
        obtain ⟨⟨tl1, htl1⟩, ⟨tl2, htl2⟩⟩ := runLoopAux_extends P fuel
          { cfg with tasks := cfg.tasks.set i t2 }
          (saves ++ [{ cfg with tasks := cfg.tasks.set i { t0 with status := Status.inProgress } }]
            ++ [{ cfg with tasks := cfg.tasks.set i t2 }])
          (processed ++ [(i, n2)])
        refine ⟨herr, by simpa using hlen, by simpa using hgates, by simpa using hmaxi,
          hpend, ?_⟩
        intro j t hj
        by_cases hji : j = i
        · subst hji
          have hteq : t = t0 := by rw [hj] at ht0; exact Option.some.inj ht0
          subst hteq
          refine ⟨fun hnp => absurd hp0 hnp, fun _ => ?_⟩
          have hset2 : ({ cfg with tasks := cfg.tasks.set j t2 } : Config).tasks[j]? = some t2 := by
            simpa using @List.getElem?_set_self _ cfg.tasks _ t2 hibound
          obtain ⟨hnp2, -⟩ := hjs j t2 hset2
          refine ⟨t2, n2, hnp2 ht2np, hpo, ?_, ?_⟩
          · rw [htl1]
            simp
          · refine ⟨{ cfg with tasks := cfg.tasks.set j t2 }, ?_, hset2⟩
            rw [htl2]
            simp
        · have hj2 : ({ cfg with tasks := cfg.tasks.set i t2 } : Config).tasks[j]? = some t := by
            simpa [List.getElem?_set_ne (Ne.symm hji)] using hj
          obtain ⟨hnp, hpend'⟩ := hjs j t hj2
          refine ⟨hnp, fun hp => ?_⟩
          obtain ⟨t', n, ha, hb, hc, hd⟩ := hpend' hp
          exact ⟨t', n, ha, by simpa using hb, hc, hd⟩

theorem runLoopAux_learnings (P : LoopParams) :
    ∀ (fuel : Nat) (cfg : Config) (saves : List Config) (processed : List (Nat × Nat))
      (j : Nat) (t : Task), cfg.tasks[j]? = some t →
      ∃ t' s, (runLoopAux P fuel cfg saves processed).cfg.tasks[j]? = some t' ∧
        t'.learnings = t.learnings ++ s := by
  intro fuel
  induction fuel with
  | zero =>
    intro cfg saves processed j t hj
    exact ⟨t, "", by simpa [runLoopAux] using hj, by simp⟩
  | succ fuel ih =>
    intro cfg saves processed j t hj
    simp only [runLoopAux]
    rcases hidx : cfg.NextPendingTaskIdx with - | i
    · simp only [hidx]
      exact ⟨t, "", hj, by simp⟩
    · simp only [hidx]
      rcases hti : cfg.tasks[i]? with - | t0
      · simp only [hti]
        exact ⟨t, "", hj, by simp⟩
      · simp only [hti]
        have hibound : i < cfg.tasks.length := (List.getElem?_eq_some.mp hti).1
        rcases hpo : processOne P cfg.gates cfg.maxIterations
            { t0 with status := Status.inProgress } with e | ⟨t2, n2⟩
        · simp only [hpo]
          by_cases hji : j = i
          · subst hji
            have hteq : t = t0 := by rw [hj] at hti; exact Option.some.inj hti
            subst hteq
            refine ⟨{ t with status := Status.inProgress }, "", ?_, by simp⟩
            simpa using @List.getElem?_set_self _ cfg.tasks _ _ hibound
          · refine ⟨t, "", ?_, by simp⟩
            simpa [List.getElem?_set_ne (Ne.symm hji)] using hj
        · simp only [hpo]
          rw [List.set_set]
          by_cases hji : j = i
          · subst hji
            have hteq : t = t0 := by rw [hj] at hti; exact Option.some.inj hti
            subst hteq
            have hset : ({ cfg with tasks := cfg.tasks.set j t2 } : Config).tasks[j]? = some t2 := by
              simpa using @List.getElem?_set_self _ cfg.tasks _ t2 hibound
            obtain ⟨t', s, hres, hlearn⟩ := ih _ _ _ j t2 hset
            obtain ⟨⟨s2, hs2⟩, -⟩ :=
              processOne_shape P cfg.gates cfg.maxIterations _ _ _ hpo
            refine ⟨t', s2 ++ s, hres, ?_⟩
            rw [hlearn, hs2]
            simp [String.append_assoc]
          · have hj2 : ({ cfg with tasks := cfg.tasks.set i t2 } : Config).tasks[j]? = some t := by
              simpa [List.getElem?_set_ne (Ne.symm hji)] using hj
            exact ih _ _ _ j t hj2

theorem runLoopAux_fuel_irrelevant (P : LoopParams) :
    ∀ (fuel : Nat) (cfg : Config) (saves : List Config) (processed : List (Nat × Nat)),
      pendingCount cfg ≤ fuel →
      runLoopAux P (fuel + 1) cfg saves processed = runLoopAux P fuel cfg saves processed := by
  intro fuel
  induction fuel with
  | zero =>
    intro cfg saves processed hf
    have hidx := nextPendingIdx_none_of_zero (Nat.le_zero.mp hf)
    simp [runLoopAux, hidx]
  | succ fuel ih =>
    intro cfg saves processed hf
    conv_lhs => rw [runLoopAux]
    conv_rhs => rw [runLoopAux]
    rcases hidx : cfg.NextPendingTaskIdx with - | i
    · simp [hidx]
    · simp only [hidx]
      obtain ⟨t0, ht0, hp0raw⟩ :=
        firstIdxWhere_some (by simpa [Config.NextPendingTaskIdx] using hidx)
      simp only [ht0]
      rcases hpo : processOne P cfg.gates cfg.maxIterations
          { t0 with status := Status.inProgress } with e | ⟨t2, n2⟩
      · simp [hpo]
      · simp only [hpo]
        have ht2np : t2.status ≠ Status.pending :=
          processOne_not_pending P _ _ _ _ _ (by simp) hpo
        have hip : Task.isPending t2 = false := by
          simp [Task.isPending, ht2np]
        have hlt : pendingCount { cfg with tasks := cfg.tasks.set i t2 } < pendingCount cfg := by
          simpa [pendingCount] using
            countP_set_lt Task.isPending cfg.tasks i t0 t2 ht0 hp0raw hip
        rw [List.set_set]
        exact ih _ _ _ (by omega)

/-! ## Task id allocation (`server.go`, `nextTaskID`) -/

/-- Numeric value of a non-empty all-digit character list (helper for the
`strconv.Atoi` model). -/
def digitsVal (cs : List Char) : Option Nat :=
  if cs.isEmpty then none
  else if cs.all (·.isDigit) then
    some (cs.foldl (fun acc c => acc * 10 + (c.toNat - '0'.toNat)) 0)
  else none

/-- Models `strconv.Atoi`: an optional sign followed by at least one digit.
Go's `Atoi` additionally rejects values outside the `int` range; task ids in
this system are small, and the model is unbounded. -/
def goAtoi (s : String) : Option Int :=
  match s.toList with
  | '+' :: cs => (digitsVal cs).map (fun n => (n : Int))
  | '-' :: cs => (digitsVal cs).map (fun n => -(n : Int))
  | cs => (digitsVal cs).map (fun n => (n : Int))

/-- `nextTaskID` of `server.go` (lines 305–313): fold over the tasks keeping
the largest id that parses as an integer (starting from 0), then print that
maximum plus one. -/
def nextTaskID (tasks : List Task) : String :=
  let maxID := tasks.foldl
    (fun maxID t =>
      match goAtoi t.id with
      | some n => if n > maxID then n else maxID
      | none => maxID)
    (0 : Int)
  toString (maxID + 1)

/-- The spec's description of the same quantity: the maximum, together
with 0, of the values of the ids that parse as integers, non-parsing ids
ignored. -/
def maxNumericID (tasks : List Task) : Int :=
  ((tasks.map (·.id)).filterMap goAtoi).foldl max 0

/-! ## The loop controller (`server.go`) -/

/-- Outcome of `handleLoopStart`: HTTP status code, the `status`/`message`
fields of a success body, the `error` field of a failure body, the `loopRunning`
flag after the handler, and whether a background engine run was launched. -/
structure StartResult where
  code : Nat
  status : Option String
  message : Option String
  errMsg : Option String
  runningAfter : Bool
  spawned : Bool
deriving DecidableEq, Repr

/-- `handleLoopStart` of `server.go` (lines 315–377), as a function of the
request-relevant state: whether a run is already active, and the loaded
config (loading is assumed to succeed; persistence errors are out of scope).
`spawned` records whether the handler launched the background goroutine. -/
def handleLoopStart (loopRunning : Bool) (cfg : Config) : StartResult :=
  if loopRunning then
    { code := 409, status := none, message := none,
      errMsg := some "loop already running", runningAfter := true, spawned := false }
  else if cfg.NextPendingTask = none then
    { code := 200, status := some "completed", message := some "no pending tasks",
      errMsg := none, runningAfter := false, spawned := false }
  else if cfg.maxIterations < 1 then
    { code := 400, status := none, message := none,
      errMsg := some "maxIterations must be >= 1", runningAfter := false, spawned := false }
  else
    { code := 200, status := some "started", message := none,
      errMsg := none, runningAfter := true, spawned := true }

/-- The task mutation performed by `handleLoopSkip` (`server.go` lines
410–424): the first in-progress task is forced to failed with a "skipped"
learning line appended; the walk stops there (`break`). -/
def skipMark : List Task → List Task
  | [] => []
  | t :: ts =>
    if t.status = Status.inProgress then
      { t with
        status := Status.failed,
        learnings := t.learnings ++ "\nSkipped by user via dashboard" } :: ts
    else t :: skipMark ts

/-! ## The event hub (`events.go`) -/

/-- A value in an event's `data` map (`map[string]any` holds strings, ints and
bools in this code). -/
inductive EventVal where
  | str (s : String)
  | int (n : Int)
  | bool (b : Bool)
deriving DecidableEq, Repr

/-- An `Event` of `events.go`.  The wall-clock `Timestamp` is outside the
model; an absent `TaskID` is the empty string, as in Go. -/
structure Event where
  type : String
  taskId : String
  data : List (String × EventVal)
deriving DecidableEq, Repr

/-- A subscriber channel: its identity, its buffer capacity (the capacity the
channel was made with) and the events currently buffered. -/
structure Subscriber where
  id : Nat
  cap : Nat
  buf : List Event
deriving DecidableEq, Repr

/-- The `EventHub` of `events.go`: a set of subscriber channels.  Channels are
modelled by identifiers carrying a bounded queue; `nextId` generates fresh
ones. -/
structure EventHub where
  nextId : Nat
  subs : List Subscriber
deriving DecidableEq, Repr

/-- Hub well-formedness: every registered id was generated in the past. -/
def EventHub.WF (h : EventHub) : Prop :=
  ∀ s ∈ h.subs, s.id < h.nextId

/-- `EventHub.Subscribe` (`events.go` lines 61–67): `make(chan Event, 64)`
creates a fresh channel with buffer capacity exactly 64; it is registered in
the subscriber set and returned. -/
def EventHub.Subscribe (h : EventHub) : Nat × EventHub :=
  (h.nextId,
   { nextId := h.nextId + 1,
     subs := h.subs ++ [{ id := h.nextId, cap := 64, buf := [] }] })

/-- `EventHub.Unsubscribe` (`events.go` lines 69–76): deregisters (and closes)
the channel. -/
def EventHub.Unsubscribe (h : EventHub) (ch : Nat) : EventHub :=
  { h with subs := h.subs.filter (fun s => decide (s.id ≠ ch)) }

/-- `EventHub.Broadcast` (`events.go` lines 80–89): the `select`/`default`
non-blocking send delivers the event to every subscriber whose buffer has
room and silently skips any subscriber whose buffer is full. -/
def EventHub.Broadcast (h : EventHub) (e : Event) : EventHub :=
  { h with
    subs := h.subs.map (fun s =>
      if s.buf.length < s.cap then { s with buf := s.buf ++ [e] } else s) }

/-! ## Remaining helper lemmas -/

theorem allGatesPassed_runGates (exec : GateExec) (gates : List String) (wd : String) :
    AllGatesPassed (RunGates exec gates wd).1 = true ↔
      ∀ g ∈ gates, (exec g wd).1 = true := by
  simp only [AllGatesPassed, RunGates, List.all_eq_true, List.mem_map]
  constructor
  · intro h g hg
    exact h _ ⟨g, hg, rfl⟩
  · rintro h r ⟨g, hg, rfl⟩
    exact h g hg

theorem skipMark_learnings :
    ∀ (tasks : List Task) (j : Nat) (t : Task), tasks[j]? = some t →
      ∃ t' s, (skipMark tasks)[j]? = some t' ∧ t'.learnings = t.learnings ++ s := by
  intro tasks
  induction tasks with
  | nil => intro j t h; simp at h
  | cons u us ih =>
    intro j t h
    by_cases hu : u.status = Status.inProgress
    · cases j with
      | zero =>
        have ht : u = t := by simpa using h
        subst ht
        exact ⟨{ u with
                 status := Status.failed,
                 learnings := u.learnings ++ "\nSkipped by user via dashboard" },
               "\nSkipped by user via dashboard", by simp [skipMark, hu], rfl⟩
      | succ n =>
        have h' : us[n]? = some t := by simpa using h
        exact ⟨t, "", by simp [skipMark, hu, h'], by simp⟩
    · cases j with
      | zero =>
        have ht : u = t := by simpa using h
        subst ht
        exact ⟨u, "", by simp [skipMark, hu], by simp⟩
      | succ n =>
        have h' : us[n]? = some t := by simpa using h
        obtain ⟨t', s, h1, h2⟩ := ih n t h'
        exact ⟨t', s, by simp [skipMark, hu, h1], h2⟩

theorem runLoopAux_last_save (P : LoopParams) :
    ∀ (fuel : Nat) (cfg : Config) (saves : List Config) (processed : List (Nat × Nat)),
      ((runLoopAux P fuel cfg saves processed).saves = saves ∧
        (runLoopAux P fuel cfg saves processed).cfg = cfg) ∨
      (runLoopAux P fuel cfg saves processed).saves.getLast? =
        some (runLoopAux P fuel cfg saves processed).cfg := by
  intro fuel
  induction fuel with
  | zero => intro cfg saves processed; exact Or.inl ⟨rfl, rfl⟩
  | succ fuel ih =>
    intro cfg saves processed
    simp only [runLoopAux]
    rcases hidx : cfg.NextPendingTaskIdx with - | i
    · exact Or.inl (by simp [hidx])
    · simp only [hidx]
      rcases hti : cfg.tasks[i]? with - | t0
      · exact Or.inl (by simp [hti])
      · simp only [hti]
        rcases hpo : processOne P cfg.gates cfg.maxIterations
            { t0 with status := Status.inProgress } with e | ⟨t2, n2⟩
        · simp only [hpo]
          exact Or.inr (by simp [List.getLast?_concat])
        · simp only [hpo]
          rcases ih { cfg with tasks := (cfg.tasks.set i { t0 with status := Status.inProgress }).set i t2 }
              (saves ++ [{ cfg with tasks := cfg.tasks.set i { t0 with status := Status.inProgress } }]
                ++ [{ cfg with tasks := (cfg.tasks.set i { t0 with status := Status.inProgress }).set i t2 }])
              (processed ++ [(i, n2)]) with heq | hlast
          · refine Or.inr ?_
            rw [heq.1, heq.2]
            simp [List.getLast?_concat]
          · exact Or.inr hlast

/-- Parameters as assembled by the repository itself: the gate runner is
`RunGates` over a shell-execution oracle. -/
def mkParams (registry : Registry) (defaultName : String) (exec : GateExec)
    (workDir : String) : LoopParams :=
  { registry := registry, defaultName := defaultName,
    gateRunner := RunGates exec, workDir := workDir }

theorem mkParams_total (registry : Registry) (defaultName : String) (exec : GateExec)
    (workDir : String) :
    ∀ g w, ((mkParams registry defaultName exec workDir).gateRunner g w).2 = none :=
  fun _ _ => rfl

/-! ## Concrete fixtures used by witnesses and counterexamples -/

/-- A provider that always succeeds. -/
def okProvider : Provider := ⟨"p", fun _ _ => ("", none)⟩

/-- A registry holding exactly the provider `"p"`. -/
def soloRegistry : Registry := fun n => if n = "p" then some okProvider else none

/-- A shell oracle under which every command exits 0. -/
def passExec : GateExec := fun _ _ => (true, "")

/-- A shell oracle under which every command exits non-zero. -/
def failExec : GateExec := fun _ _ => (false, "boom")

/-- A fresh task with the given id, title and status. -/
def mkTask (id title : String) (st : Status) : Task :=
  { id := id, title := title, description := "", status := st,
    learnings := "", provider := "" }

/-- A config with one gate, the given iteration ceiling and tasks. -/
def cfgWith (mi : Int) (ts : List Task) : Config :=
  { name := "demo", provider := "p", branch := "main", gates := ["go test"],
    maxIterations := mi, tasks := ts }

/-! ## Claims -/

/-- C1, counterexample.  The claim quantifies over any set of tasks, but
`RunLoop` selects only pending tasks: a task that is already in-progress in
the persisted config is never selected and keeps its status, and with
`maxIterations = 0` a pending task is marked in-progress and then the
iteration loop body never runs, so it too survives; in both runs the engine
completes without error and without cancellation, under a deterministic
provider and deterministic gates, yet a task ends neither done nor failed. -/
theorem C1_counterexample :
    ((RunLoop (mkParams soloRegistry "p" passExec "w")
        (cfgWith 1 [mkTask "1" "a" Status.inProgress])).err = none ∧
      (RunLoop (mkParams soloRegistry "p" passExec "w")
        (cfgWith 1 [mkTask "1" "a" Status.inProgress])).cfg.tasks.map (·.status) =
          [Status.inProgress]) ∧
    ((RunLoop (mkParams soloRegistry "p" passExec "w")
        (cfgWith 0 [mkTask "1" "a" Status.pending])).err = none ∧
      (RunLoop (mkParams soloRegistry "p" passExec "w")
        (cfgWith 0 [mkTask "1" "a" Status.pending])).cfg.tasks.map (·.status) =
          [Status.inProgress]) := by
  decide

/-- C1, amended: for any set of tasks *none of which is already in-progress*
and a config with `maxIterations ≥ 1` (the data model's own constraint),
after `RunLoop` completes a full run with the repository's gate runner and a
deterministic provider, the run reports no error, the in-memory config is
exactly the last persisted one (or nothing was persisted because there was no
pending task), and every task in it is done or failed — never pending or
in-progress. -/
theorem C1_theorem (registry : Registry) (defaultName workDir : String)
    (exec : GateExec) (cfg : Config)
    (hmi : 1 ≤ cfg.maxIterations)
    (hnp : ∀ t ∈ cfg.tasks, t.status ≠ Status.inProgress) :
    (RunLoop (mkParams registry defaultName exec workDir) cfg).err = none ∧
    ((RunLoop (mkParams registry defaultName exec workDir) cfg).saves = [] ∨
      (RunLoop (mkParams registry defaultName exec workDir) cfg).saves.getLast? =
        some (RunLoop (mkParams registry defaultName exec workDir) cfg).cfg) ∧
    ∀ t' ∈ (RunLoop (mkParams registry defaultName exec workDir) cfg).cfg.tasks,
      t'.status = Status.done ∨ t'.status = Status.failed := by
  have Htotal := mkParams_total registry defaultName exec workDir
  simp only [RunLoop]
  obtain ⟨herr, hlen, -, -, -, hjs⟩ :=
    runLoopAux_char _ Htotal (pendingCount cfg) cfg [] [] (le_refl _)
  refine ⟨herr, ?_, ?_⟩
  · rcases runLoopAux_last_save (mkParams registry defaultName exec workDir)
        (pendingCount cfg) cfg [] [] with ⟨h1, -⟩ | h2
    · exact Or.inl h1
    · exact Or.inr h2
  · intro t' ht'
    obtain ⟨j, hj⟩ := List.mem_iff_getElem?.mp ht'
    have hjlt : j < cfg.tasks.length := by
      have hb := (List.getElem?_eq_some.mp hj).1
      rwa [hlen] at hb
    obtain ⟨t, ht⟩ : ∃ t, cfg.tasks[j]? = some t :=
      ⟨cfg.tasks[j], List.getElem?_eq_some.mpr ⟨hjlt, rfl⟩⟩
    obtain ⟨hnpc, hpc⟩ := hjs j t ht
    by_cases hp : t.status = Status.pending
    · obtain ⟨t2, n, hres, hpo, -, -⟩ := hpc hp
      have ht2 : t' = t2 := by rw [hj] at hres; exact Option.some.inj hres
      subst ht2
      exact processOne_terminal _ _ _ _ _ _ hmi hpo
    · have hres := hnpc hp
      have hteq : t' = t := by rw [hj] at hres; exact Option.some.inj hres
      subst hteq
      have hni := hnp t' (List.getElem?_mem ht)
      cases hst : t'.status with
      | pending => exact absurd hst hp
      | inProgress => exact absurd hst hni
      | done => exact Or.inl rfl
      | failed => exact Or.inr rfl

/-- C1 witness: instantiating the amended claim on a two-pending-task config
with a succeeding provider and passing gates. -/
theorem C1_theorem_witness :
    (mkTask "1" "a" Status.done).status = Status.done ∨
    (mkTask "1" "a" Status.done).status = Status.failed :=
  (C1_theorem soloRegistry "p" "w" passExec
      (cfgWith 3 [mkTask "1" "a" Status.pending, mkTask "2" "b" Status.pending])
      (by decide) (by decide)).2.2
    (mkTask "1" "a" Status.done) (by decide)

/-- C2: with `maxIterations = N ≥ 1`, a provider that always succeeds for
every task, and a non-empty gate list whose commands all fail under the shell
oracle, every initially-pending task is failed after exactly `N` iterations
and gets the iteration-exhaustion learning line appended to its learnings. -/
theorem C2_theorem (registry : Registry) (defaultName workDir : String)
    (exec : GateExec) (cfg : Config) (N : Int)
    (hN : cfg.maxIterations = N) (hN1 : 1 ≤ N)
    (hgates : cfg.gates ≠ [])
    (hfail : ∀ g, (exec g workDir).1 = false)
    (hprov : ∀ t ∈ cfg.tasks, ∃ p,
      registry (t.EffectiveProvider defaultName) = some p ∧
      ∀ pr w, (p.run pr w).2 = none) :
    ∀ (j : Nat) (t : Task), cfg.tasks[j]? = some t → t.status = Status.pending →
      ∃ t', (RunLoop (mkParams registry defaultName exec workDir) cfg).cfg.tasks[j]? = some t' ∧
        t'.status = Status.failed ∧
        t'.learnings = t.learnings ++ "\nFailed after " ++ toString N ++
          " iterations. Gates did not pass." ∧
        (j, N.toNat) ∈ (RunLoop (mkParams registry defaultName exec workDir) cfg).processed := by
  have Htotal := mkParams_total registry defaultName exec workDir
  simp only [RunLoop]
  obtain ⟨-, -, -, -, -, hjs⟩ :=
    runLoopAux_char _ Htotal (pendingCount cfg) cfg [] [] (le_refl _)
  intro j t hj hp
  obtain ⟨-, hpc⟩ := hjs j t hj
  obtain ⟨t2, n, hres, hpo, hmem, -⟩ := hpc hp
  obtain ⟨p, hreg, hpok⟩ := hprov t (List.getElem?_mem hj)
  -- compute `processOne` on the in-progress copy directly
  have hfl : AllGatesPassed (RunGates exec cfg.gates workDir).1 = false := by
    cases hgl : cfg.gates with
    | nil => exact absurd hgl hgates
    | cons g gs => simp [RunGates, AllGatesPassed, hfail g]
  have hcomp := runIters_gates_fail p cfg.gates
    (mkParams registry defaultName exec workDir).gateRunner workDir cfg.maxIterations
    (RunGates exec cfg.gates workDir).1 hpok rfl hfl
    cfg.maxIterations.toNat 1 "" { t with status := Status.inProgress }
    (by omega) (by omega)
  have hpo2 : processOne (mkParams registry defaultName exec workDir) cfg.gates
      cfg.maxIterations { t with status := Status.inProgress } =
      .ok ({ t with
             status := Status.failed,
             learnings := t.learnings ++ "\nFailed after " ++ toString cfg.maxIterations ++
               " iterations. Gates did not pass." }, cfg.maxIterations.toNat) := by
    have hreg' : (mkParams registry defaultName exec workDir).registry
        (Task.EffectiveProvider { t with status := Status.inProgress }
          (mkParams registry defaultName exec workDir).defaultName) = some p := hreg
    simp only [processOne, hreg']
    exact hcomp
  rw [hpo2] at hpo
  have hpair := Except.ok.inj hpo
  have ht2 : t2 = { t with
      status := Status.failed,
      learnings := t.learnings ++ "\nFailed after " ++ toString cfg.maxIterations ++
        " iterations. Gates did not pass." } :=
    (congrArg Prod.fst hpair).symm
  have hn : n = cfg.maxIterations.toNat :=
    (congrArg Prod.snd hpair).symm
  subst hN
  refine ⟨t2, hres, ?_, ?_, ?_⟩
  · rw [ht2]
  · rw [ht2]
  · rw [← hn]; exact hmem

/-- C2 witness: two failing-gate iterations on a single pending task. -/
theorem C2_theorem_witness :
    ∃ t', (RunLoop (mkParams soloRegistry "p" failExec "w")
        (cfgWith 2 [mkTask "1" "a" Status.pending])).cfg.tasks[0]? = some t' ∧
      t'.status = Status.failed ∧
      t'.learnings = (mkTask "1" "a" Status.pending).learnings ++ "\nFailed after " ++
        toString (2 : Int) ++ " iterations. Gates did not pass." ∧
      (0, (2 : Int).toNat) ∈ (RunLoop (mkParams soloRegistry "p" failExec "w")
        (cfgWith 2 [mkTask "1" "a" Status.pending])).processed :=
  C2_theorem soloRegistry "p" "w" failExec
    (cfgWith 2 [mkTask "1" "a" Status.pending]) 2 rfl (by decide) (by decide)
    (fun g => rfl)
    (by
      intro t ht
      refine ⟨okProvider, ?_, fun pr w => rfl⟩
      simp [cfgWith, mkTask] at ht
      subst ht
      rfl)
    0 (mkTask "1" "a" Status.pending) (by decide) (by decide)

/-- C3: (a) a task processed by `RunLoop` ends done only if every configured
gate passes — under a shell oracle with at least one failing gate command, no
initially-pending task can end done; and (b) when the provider succeeds and
every gate command passes, every initially-pending task is done with exactly
one iteration consumed. -/
theorem C3_theorem (registry : Registry) (defaultName workDir : String)
    (exec : GateExec) (cfg : Config) :
    ((∃ g ∈ cfg.gates, (exec g workDir).1 = false) →
      ∀ (j : Nat) (t : Task), cfg.tasks[j]? = some t → t.status = Status.pending →
        ∀ t', (RunLoop (mkParams registry defaultName exec workDir) cfg).cfg.tasks[j]? = some t' →
          t'.status ≠ Status.done) ∧
    ((∀ g ∈ cfg.gates, (exec g workDir).1 = true) →
      (∀ t ∈ cfg.tasks, ∃ p, registry (t.EffectiveProvider defaultName) = some p ∧
        ∀ pr w, (p.run pr w).2 = none) →
      1 ≤ cfg.maxIterations →
      ∀ (j : Nat) (t : Task), cfg.tasks[j]? = some t → t.status = Status.pending →
        ∃ t', (RunLoop (mkParams registry defaultName exec workDir) cfg).cfg.tasks[j]? = some t' ∧
          t'.status = Status.done ∧
          (j, 1) ∈ (RunLoop (mkParams registry defaultName exec workDir) cfg).processed) := by
  have Htotal := mkParams_total registry defaultName exec workDir
  simp only [RunLoop]
  obtain ⟨-, -, -, -, -, hjs⟩ :=
    runLoopAux_char _ Htotal (pendingCount cfg) cfg [] [] (le_refl _)
  constructor
  · intro hex j t hj hp t' ht'
    obtain ⟨-, hpc⟩ := hjs j t hj
    obtain ⟨t2, n, hres, hpo, -, -⟩ := hpc hp
    have ht2 : t' = t2 := by rw [ht'] at hres; exact Option.some.inj hres
    subst ht2
    have hfl : AllGatesPassed (RunGates exec cfg.gates workDir).1 = false := by
      cases hb : AllGatesPassed (RunGates exec cfg.gates workDir).1 with
      | false => rfl
      | true =>
        obtain ⟨g, hg, hgf⟩ := hex
        have := (allGatesPassed_runGates exec cfg.gates workDir).mp hb g hg
        rw [this] at hgf
        exact absurd hgf (by simp)
    simp only [processOne] at hpo
    rcases hreg : (mkParams registry defaultName exec workDir).registry
        (Task.EffectiveProvider { t with status := Status.inProgress }
          (mkParams registry defaultName exec workDir).defaultName) with - | p
    · rw [hreg] at hpo
      simp at hpo
      obtain ⟨rfl, -⟩ := hpo
      simp
    · rw [hreg] at hpo
      exact runIters_no_done p cfg.gates
        (mkParams registry defaultName exec workDir).gateRunner workDir cfg.maxIterations
        (RunGates exec cfg.gates workDir).1 rfl hfl
        cfg.maxIterations.toNat 1 "" _ t' n (by simp) hpo
  · intro hpassAll hprov hmi j t hj hp
    obtain ⟨-, hpc⟩ := hjs j t hj
    obtain ⟨t2, n, hres, hpo, hmem, -⟩ := hpc hp
    obtain ⟨p, hreg, hpok⟩ := hprov t (List.getElem?_mem hj)
    have hpass : AllGatesPassed (RunGates exec cfg.gates workDir).1 = true :=
      (allGatesPassed_runGates exec cfg.gates workDir).mpr hpassAll
    have hcomp := runIters_all_pass p cfg.gates
      (mkParams registry defaultName exec workDir).gateRunner workDir cfg.maxIterations
      (RunGates exec cfg.gates workDir).1 hpok rfl hpass
      cfg.maxIterations.toNat 1 "" { t with status := Status.inProgress } (by omega)
    have hpo2 : processOne (mkParams registry defaultName exec workDir) cfg.gates
        cfg.maxIterations { t with status := Status.inProgress } =
        .ok ({ t with status := Status.done }, 1) := by
      have hreg' : (mkParams registry defaultName exec workDir).registry
          (Task.EffectiveProvider { t with status := Status.inProgress }
            (mkParams registry defaultName exec workDir).defaultName) = some p := hreg
      simp only [processOne, hreg']
      exact hcomp
    rw [hpo2] at hpo
    have hpair := Except.ok.inj hpo
    have ht2 : t2 = { t with status := Status.done } := (congrArg Prod.fst hpair).symm
    have hn : n = 1 := (congrArg Prod.snd hpair).symm
    refine ⟨t2, hres, ?_, ?_⟩
    · rw [ht2]
    · rw [← hn]; exact hmem

/-- C3 witness: with a failing gate the pending task does not end done; with
passing gates it ends done with one iteration consumed. -/
theorem C3_theorem_witness :
    ({ id := "1", title := "a", description := "", status := Status.failed,
       learnings := "\nFailed after 2 iterations. Gates did not pass.",
       provider := "" } : Task).status ≠ Status.done ∧
    ∃ t', (RunLoop (mkParams soloRegistry "p" passExec "w")
        (cfgWith 2 [mkTask "1" "a" Status.pending])).cfg.tasks[0]? = some t' ∧
      t'.status = Status.done ∧
      (0, 1) ∈ (RunLoop (mkParams soloRegistry "p" passExec "w")
        (cfgWith 2 [mkTask "1" "a" Status.pending])).processed :=
  ⟨(C3_theorem soloRegistry "p" "w" failExec
        (cfgWith 2 [mkTask "1" "a" Status.pending])).1
      ⟨"go test", by decide, rfl⟩ 0 (mkTask "1" "a" Status.pending)
      (by decide) (by decide) _ (by decide),
   (C3_theorem soloRegistry "p" "w" passExec
        (cfgWith 2 [mkTask "1" "a" Status.pending])).2
      (fun g _ => rfl)
      (by
        intro t ht
        refine ⟨okProvider, ?_, fun pr w => rfl⟩
        simp [cfgWith, mkTask] at ht
        subst ht
        rfl)
      (by decide) 0 (mkTask "1" "a" Status.pending) (by decide) (by decide)⟩

/-- C4: a pending task whose effective provider is not registered is failed
immediately with a learning line naming the unknown provider (in `%q` quotes),
consumes zero iterations, has its failure persisted, produces no run-level
error, and the run still processes every other pending task. -/
theorem C4_theorem (registry : Registry) (defaultName workDir : String)
    (exec : GateExec) (cfg : Config) (j : Nat) (t : Task)
    (hj : cfg.tasks[j]? = some t) (hp : t.status = Status.pending)
    (hreg : registry (t.EffectiveProvider defaultName) = none) :
    (RunLoop (mkParams registry defaultName exec workDir) cfg).err = none ∧
    ∃ t', (RunLoop (mkParams registry defaultName exec workDir) cfg).cfg.tasks[j]? = some t' ∧
      t'.status = Status.failed ∧
      t'.learnings = t.learnings ++ "\nUnknown provider: " ++
        goQuote (t.EffectiveProvider defaultName) ∧
      (j, 0) ∈ (RunLoop (mkParams registry defaultName exec workDir) cfg).processed ∧
      (∃ c ∈ (RunLoop (mkParams registry defaultName exec workDir) cfg).saves,
        c.tasks[j]? = some t') ∧
      ∀ (k : Nat) (u : Task), cfg.tasks[k]? = some u → u.status = Status.pending →
        ∃ m, (k, m) ∈ (RunLoop (mkParams registry defaultName exec workDir) cfg).processed := by
  have Htotal := mkParams_total registry defaultName exec workDir
  simp only [RunLoop]
  obtain ⟨herr, -, -, -, -, hjs⟩ :=
    runLoopAux_char _ Htotal (pendingCount cfg) cfg [] [] (le_refl _)
  obtain ⟨-, hpc⟩ := hjs j t hj
  obtain ⟨t2, n, hres, hpo, hmem, hsave⟩ := hpc hp
  have hreg' : (mkParams registry defaultName exec workDir).registry
      (Task.EffectiveProvider { t with status := Status.inProgress }
        (mkParams registry defaultName exec workDir).defaultName) = none := hreg
  have hpo2 := processOne_unknown (mkParams registry defaultName exec workDir)
    cfg.gates cfg.maxIterations { t with status := Status.inProgress } hreg'
  rw [hpo2] at hpo
  have hpair := Except.ok.inj hpo
  have ht2 : t2 = { t with
      status := Status.failed,
      learnings := t.learnings ++ "\nUnknown provider: " ++
        goQuote (t.EffectiveProvider defaultName) } :=
    (congrArg Prod.fst hpair).symm
  have hn : n = 0 := (congrArg Prod.snd hpair).symm
  refine ⟨herr, t2, hres, ?_, ?_, ?_, hsave, ?_⟩
  · rw [ht2]
  · rw [ht2]
  · rw [← hn]; exact hmem
  · intro k u hk hup
    obtain ⟨-, hpk⟩ := hjs k u hk
    obtain ⟨-, m, -, -, hm, -⟩ := hpk hup
    exact ⟨m, hm⟩

/-- C4 witness: a task overriding its provider to the unregistered name
`"ghost"`, followed by a second pending task that still gets processed. -/
theorem C4_theorem_witness :
    (RunLoop (mkParams soloRegistry "p" passExec "w")
      (cfgWith 1 [{ mkTask "1" "a" Status.pending with provider := "ghost" },
                  mkTask "2" "b" Status.pending])).err = none ∧
    ∃ t', (RunLoop (mkParams soloRegistry "p" passExec "w")
        (cfgWith 1 [{ mkTask "1" "a" Status.pending with provider := "ghost" },
                    mkTask "2" "b" Status.pending])).cfg.tasks[0]? = some t' ∧
      t'.status = Status.failed ∧
      t'.learnings = ({ mkTask "1" "a" Status.pending with provider := "ghost" } : Task).learnings
        ++ "\nUnknown provider: " ++
        goQuote (({ mkTask "1" "a" Status.pending with provider := "ghost" } : Task).EffectiveProvider "p") ∧
      (0, 0) ∈ (RunLoop (mkParams soloRegistry "p" passExec "w")
        (cfgWith 1 [{ mkTask "1" "a" Status.pending with provider := "ghost" },
                    mkTask "2" "b" Status.pending])).processed ∧
      (∃ c ∈ (RunLoop (mkParams soloRegistry "p" passExec "w")
          (cfgWith 1 [{ mkTask "1" "a" Status.pending with provider := "ghost" },
                      mkTask "2" "b" Status.pending])).saves, c.tasks[0]? = some t') ∧
      ∀ (k : Nat) (u : Task), (cfgWith 1 [{ mkTask "1" "a" Status.pending with provider := "ghost" },
          mkTask "2" "b" Status.pending]).tasks[k]? = some u → u.status = Status.pending →
        ∃ m, (k, m) ∈ (RunLoop (mkParams soloRegistry "p" passExec "w")
          (cfgWith 1 [{ mkTask "1" "a" Status.pending with provider := "ghost" },
                      mkTask "2" "b" Status.pending])).processed :=
  C4_theorem soloRegistry "p" "w" passExec
    (cfgWith 1 [{ mkTask "1" "a" Status.pending with provider := "ghost" },
                mkTask "2" "b" Status.pending])
    0 ({ mkTask "1" "a" Status.pending with provider := "ghost" })
    (by decide) (by decide) rfl

/-- C9: both the engine and the controller's skip only append to a task's
learnings: after a full `RunLoop` (any registry, any gate runner — including
one that aborts the run) every task's learnings extends its previous
learnings, and the same holds for the skip mutation of `handleLoopSkip`. -/
theorem C9_theorem (P : LoopParams) (cfg : Config) :
    (∀ (j : Nat) (t : Task), cfg.tasks[j]? = some t →
      ∃ t' s, (RunLoop P cfg).cfg.tasks[j]? = some t' ∧
        t'.learnings = t.learnings ++ s) ∧
    ∀ (tasks : List Task) (j : Nat) (t : Task), tasks[j]? = some t →
      ∃ t' s, (skipMark tasks)[j]? = some t' ∧ t'.learnings = t.learnings ++ s := by
  constructor
  · intro j t hj
    exact runLoopAux_learnings P (pendingCount cfg) cfg [] [] j t hj
  · exact skipMark_learnings

/-- C9 witness: a task with existing learnings keeps them as a prefix, both
through a failing run and through a user skip. -/
theorem C9_theorem_witness :
    (∃ t' s, (RunLoop (mkParams soloRegistry "p" failExec "w")
        (cfgWith 2 [{ mkTask "1" "a" Status.pending with learnings := "old" }])).cfg.tasks[0]? =
          some t' ∧ t'.learnings = "old" ++ s) ∧
    (∃ t' s, (skipMark [{ mkTask "1" "a" Status.inProgress with learnings := "old" }])[0]? =
          some t' ∧ t'.learnings = "old" ++ s) :=
  ⟨(C9_theorem (mkParams soloRegistry "p" failExec "w")
        (cfgWith 2 [{ mkTask "1" "a" Status.pending with learnings := "old" }])).1
      0 ({ mkTask "1" "a" Status.pending with learnings := "old" }) (by decide),
   (C9_theorem (mkParams soloRegistry "p" failExec "w")
        (cfgWith 2 [{ mkTask "1" "a" Status.pending with learnings := "old" }])).2
      [{ mkTask "1" "a" Status.inProgress with learnings := "old" }] 0
      ({ mkTask "1" "a" Status.inProgress with learnings := "old" }) (by decide)⟩

/-- C10: `RunGates` never surfaces an error — for every shell oracle, gate
list and working directory its error component is `nil` and each command is
recorded as a result whose `Passed` is simply whether the command ran without
error — and consequently `RunLoop` driven by `RunGates` never returns the
run-aborting gate-mechanism error: that branch is unreachable with this gate
runner. -/
theorem C10_theorem (exec : GateExec) :
    (∀ gates workDir, (RunGates exec gates workDir).2 = none ∧
      (RunGates exec gates workDir).1.length = gates.length ∧
      ∀ (i : Nat) (g : String), gates[i]? = some g →
        (RunGates exec gates workDir).1[i]? =
          some { command := g, passed := (exec g workDir).1,
                 output := (exec g workDir).2 }) ∧
    ∀ (registry : Registry) (defaultName workDir : String) (cfg : Config),
      (RunLoop (mkParams registry defaultName exec workDir) cfg).err = none := by
  constructor
  · intro gates workDir
    refine ⟨rfl, by simp [RunGates], ?_⟩
    intro i g hg
    simp [RunGates, List.getElem?_map, hg]
  · intro registry defaultName workDir cfg
    simp only [RunLoop]
    exact (runLoopAux_char _ (mkParams_total registry defaultName exec workDir)
      (pendingCount cfg) cfg [] [] (le_refl _)).1

/-- C10 witness: the failing oracle on a concrete gate list and a concrete
run. -/
theorem C10_theorem_witness :
    (RunGates failExec ["go test"] "w").1[0]? =
      some { command := "go test", passed := (failExec "go test" "w").1,
             output := (failExec "go test" "w").2 } ∧
    (RunLoop (mkParams soloRegistry "p" failExec "w")
      (cfgWith 2 [mkTask "1" "a" Status.pending])).err = none :=
  ⟨((C10_theorem failExec).1 ["go test"] "w").2.2 0 "go test" (by decide),
   (C10_theorem failExec).2 soloRegistry "p" "w"
     (cfgWith 2 [mkTask "1" "a" Status.pending])⟩

/-- C5: `handleLoopStart` with a run already active answers 409 and spawns no
second run (and leaves the running flag set); with no pending task it answers
200 with status "completed" / message "no pending tasks", does not set
running, and spawns nothing; with a pending task but `maxIterations < 1` it
answers 400 with the validation message and spawns nothing. -/
theorem C5_theorem (cfg : Config) :
    handleLoopStart true cfg =
      { code := 409, status := none, message := none,
        errMsg := some "loop already running", runningAfter := true, spawned := false } ∧
    (cfg.NextPendingTask = none →
      handleLoopStart false cfg =
        { code := 200, status := some "completed", message := some "no pending tasks",
          errMsg := none, runningAfter := false, spawned := false }) ∧
    (cfg.NextPendingTask ≠ none → cfg.maxIterations < 1 →
      handleLoopStart false cfg =
        { code := 400, status := none, message := none,
          errMsg := some "maxIterations must be >= 1", runningAfter := false,
          spawned := false }) := by
  refine ⟨rfl, ?_, ?_⟩
  · intro h
    simp [handleLoopStart, h]
  · intro h1 h2
    simp [handleLoopStart, h1, h2]

/-- C5 witness: the three branches at concrete configs. -/
theorem C5_theorem_witness :
    handleLoopStart false (cfgWith 3 []) =
      { code := 200, status := some "completed", message := some "no pending tasks",
        errMsg := none, runningAfter := false, spawned := false } ∧
    handleLoopStart false (cfgWith 0 [mkTask "1" "a" Status.pending]) =
      { code := 400, status := none, message := none,
        errMsg := some "maxIterations must be >= 1", runningAfter := false,
        spawned := false } :=
  ⟨(C5_theorem (cfgWith 3 [])).2.1 (by decide),
   (C5_theorem (cfgWith 0 [mkTask "1" "a" Status.pending])).2.2 (by decide) (by decide)⟩

/-- C6: `Subscribe` registers (and returns) a fresh channel with buffer
capacity exactly 64 and an empty buffer — fresh in that, for a well-formed
hub, no registered channel has the returned id; `Broadcast` appends the event
to every registered subscriber whose buffer has room and leaves a full
subscriber's entry entirely unchanged (so no buffer ever exceeds its
capacity, and nobody blocks); after `Unsubscribe ch` no registered subscriber
has id `ch`, and broadcasting afterwards still delivers nothing to `ch`. -/
theorem C6_theorem (h : EventHub) (e : Event) (ch : Nat) :
    (h.Subscribe.2.subs = h.subs ++ [{ id := h.Subscribe.1, cap := 64, buf := [] }] ∧
      (h.WF → ∀ s ∈ h.subs, s.id ≠ h.Subscribe.1)) ∧
    ((∀ (i : Nat) (s : Subscriber), h.subs[i]? = some s →
        (h.Broadcast e).subs[i]? =
          some (if s.buf.length < s.cap then { s with buf := s.buf ++ [e] } else s)) ∧
      ((∀ s ∈ h.subs, s.buf.length ≤ s.cap) →
        ∀ s' ∈ (h.Broadcast e).subs, s'.buf.length ≤ s'.cap)) ∧
    ((∀ s ∈ (h.Unsubscribe ch).subs, s.id ≠ ch) ∧
      ∀ s ∈ ((h.Unsubscribe ch).Broadcast e).subs, s.id ≠ ch) := by
  refine ⟨⟨rfl, ?_⟩, ⟨?_, ?_⟩, ?_, ?_⟩
  · intro hwf s hs
    exact Nat.ne_of_lt (hwf s hs)
  · intro i s hs
    simp [EventHub.Broadcast, List.getElem?_map, hs]
  · intro hcap s' hs'
    simp only [EventHub.Broadcast, List.mem_map] at hs'
    obtain ⟨s, hs, rfl⟩ := hs'
    by_cases hlt : s.buf.length < s.cap
    · simp [hlt]
      omega
    · simp [hlt]
      exact hcap s hs
  · intro s hs
    simp only [EventHub.Unsubscribe, List.mem_filter] at hs
    simpa using hs.2
  · intro s hs
    simp only [EventHub.Broadcast, List.mem_map] at hs
    obtain ⟨s0, hs0, rfl⟩ := hs
    simp only [EventHub.Unsubscribe, List.mem_filter] at hs0
    have hne : s0.id ≠ ch := by simpa using hs0.2
    by_cases hlt : s0.buf.length < s0.cap <;> simp [hlt, hne]

/-- A two-subscriber hub whose second subscriber has a full (zero-capacity)
buffer. -/
def hubA : EventHub :=
  { nextId := 2,
    subs := [{ id := 0, cap := 64, buf := [] }, { id := 1, cap := 0, buf := [] }] }

/-- A one-subscriber hub. -/
def hubB : EventHub := { nextId := 2, subs := [{ id := 0, cap := 64, buf := [] }] }

/-- A sample event. -/
def evDone : Event := { type := "task_done", taskId := "1", data := [] }

/-- C6 witness: a broadcast to a hub with one full subscriber, and a broadcast
after unsubscribing. -/
theorem C6_theorem_witness :
    (hubA.Broadcast evDone).subs[1]? =
      some (if ([] : List Event).length < 0 then
              { id := 1, cap := 0, buf := [] ++ [evDone] }
            else { id := 1, cap := 0, buf := [] }) ∧
    ∀ s ∈ ((hubB.Unsubscribe 0).Broadcast evDone).subs, s.id ≠ 0 :=
  ⟨(C6_theorem hubA evDone 0).2.1.1 1 { id := 1, cap := 0, buf := [] } (by decide),
   (C6_theorem hubB evDone 0).2.2.2⟩

/-- Fold equivalence behind `nextTaskID`: the Go loop's running maximum over
ids that parse equals a fold of `max` over the parsed values. -/
theorem nextTaskID_fold (l : List Task) :
    ∀ a : Int,
      l.foldl
        (fun maxID t =>
          match goAtoi t.id with
          | some n => if n > maxID then n else maxID
          | none => maxID) a
        = ((l.map (·.id)).filterMap goAtoi).foldl max a := by
  induction l with
  | nil => intro a; rfl
  | cons x xs ih =>
    intro a
    cases hx : goAtoi x.id with
    | none => simp [List.filterMap_cons, hx, ih]
    | some n =>
      simp only [List.foldl_cons, List.map_cons, List.filterMap_cons, hx, ih]
      have harg : (if n > a then n else a) = max a n := by
        rcases le_or_lt n a with hle | hlt
        · rw [if_neg (not_lt.mpr hle), max_eq_left hle]
        · rw [if_pos hlt, max_eq_right hlt.le]
      rw [harg]

/-- C8: `nextTaskID` returns the decimal string of one plus the maximum
(together with 0) of the values of all ids that parse as integers, ignoring
non-numeric ids; in particular the spec's four examples hold, including "1"
for an empty task list. -/
theorem C8_theorem :
    (∀ tasks : List Task, nextTaskID tasks = toString (maxNumericID tasks + 1)) ∧
    nextTaskID [] = "1" ∧
    nextTaskID [mkTask "1" "" Status.pending, mkTask "2" "" Status.pending,
      mkTask "3" "" Status.pending] = "4" ∧
    nextTaskID [mkTask "1" "" Status.pending, mkTask "5" "" Status.pending] = "6" ∧
    nextTaskID [mkTask "abc" "" Status.pending, mkTask "2" "" Status.pending] = "3" := by
  refine ⟨?_, by decide, by decide, by decide, by decide⟩
  intro tasks
  simp only [nextTaskID, maxNumericID, nextTaskID_fold]

/-! ## The event translator (`events.go`, `parseLogMessage`)

String operations are modelled at the level of character lists.  All the
literals involved are valid UTF-8, so Go's byte-level `strings.HasPrefix` /
`HasSuffix` / `TrimPrefix` / `TrimSuffix` agree with the character-level
versions used here. -/

/-- `strings.HasPrefix`. -/
def strHasPre (s pre : String) : Bool := pre.toList.isPrefixOf s.toList

/-- `strings.HasSuffix`. -/
def strHasSuf (s suf : String) : Bool := suf.toList.isSuffixOf s.toList

/-- `strings.TrimPrefix`. -/
def trimPre (s pre : String) : String :=
  if strHasPre s pre then ⟨s.toList.drop pre.toList.length⟩ else s

/-- `strings.TrimSuffix`. -/
def trimSuf (s suf : String) : String :=
  if strHasSuf s suf then ⟨s.toList.take (s.toList.length - suf.toList.length)⟩ else s

/-- Value of a digit run (most significant first). -/
def natOfDigits (ds : List Char) : Nat :=
  ds.foldl (fun a c => a * 10 + (c.toNat - '0'.toNat)) 0

/-- A maximal digit run and its value; `none` when there is no digit. -/
def digitsNum (cs : List Char) : Option (Nat × List Char) :=
  let ds := cs.takeWhile (fun c => c.isDigit)
  if ds.isEmpty then none
  else some (natOfDigits ds, cs.dropWhile (fun c => c.isDigit))

/-- The `%d` verb of `fmt.Sscanf`: an optionally signed digit run.  (Go also
skips leading spaces before a verb; the engine's messages carry exactly the
single spaces of the format string, where the two agree.) -/
def parseInt (cs : List Char) : Option (Int × List Char) :=
  match cs with
  | [] => none
  | c :: rest =>
    if c = '-' then (digitsNum rest).map (fun p => (-(p.1 : Int), p.2))
    else if c = '+' then (digitsNum rest).map (fun p => ((p.1 : Int), p.2))
    else (digitsNum cs).map (fun p => ((p.1 : Int), p.2))

/-- The `%s` verb of `fmt.Sscanf`: a maximal non-empty run of non-space
characters. -/
def parseToken (cs : List Char) : Option (String × List Char) :=
  let tok := cs.takeWhile (fun c => !c.isWhitespace)
  if tok.isEmpty then none
  else some (⟨tok⟩, cs.dropWhile (fun c => !c.isWhitespace))

/-- Literal text in a scan format: must match character by character. -/
def dropLiteral : List Char → List Char → Option (List Char)
  | [], cs => some cs
  | _ :: _, [] => none
  | l :: ls, c :: cs => if l = c then dropLiteral ls cs else none

/-- Decimal digit characters of `n`, most significant first (`fuel ≥ n`
suffices; the top-level call passes `n` itself). -/
def natDecAux : Nat → Nat → List Char
  | 0, n => [Nat.digitChar (n % 10)]
  | fuel + 1, n =>
    if n < 10 then [Nat.digitChar n]
    else natDecAux fuel (n / 10) ++ [Nat.digitChar (n % 10)]

/-- Decimal digit characters of `n`. -/
def natDec (n : Nat) : List Char := natDecAux n n

/-- Models `fmt.Sprintf("%d", i)` (and `strconv.Itoa`): signed decimal. -/
def intDec (i : Int) : String :=
  if i < 0 then ⟨'-' :: natDec (-i).toNat⟩ else ⟨natDec i.toNat⟩

/-- The `fmt.Sscanf(msg, "── Iteration %d/%d ── Task #%s", …)` call of
`parseLogMessage` (`events.go` line 115); `some` corresponds to `n == 3`. -/
def parseIterationHeader (msg : String) : Option (Int × Int × String) := do
  let r1 ← dropLiteral "── Iteration ".toList msg.toList
  let (it, r2) ← parseInt r1
  let r3 ← dropLiteral "/".toList r2
  let (mx, r4) ← parseInt r3
  let r5 ← dropLiteral " ── Task #".toList r4
  let (tok, _) ← parseToken r5
  pure (it, mx, tok)

/-- The event-type constants of `events.go`. -/
def EventLoopStarted : String := "loop_started"

/-- See `EventLoopStarted`. -/
def EventIterationStarted : String := "iteration_started"

/-- See `EventLoopStarted`. -/
def EventProviderInvoked : String := "provider_invoked"

/-- See `EventLoopStarted`. -/
def EventProviderFinished : String := "provider_finished"

/-- See `EventLoopStarted`. -/
def EventGateResult : String := "gate_result"

/-- See `EventLoopStarted`. -/
def EventTaskDone : String := "task_done"

/-- See `EventLoopStarted`. -/
def EventTaskFailed : String := "task_failed"

/-- See `EventLoopStarted`. -/
def EventLogMessage : String := "log_message"

/-- `parseLogMessage` of `events.go` (lines 112–194): the ordered cascade of
textual shapes.  The iteration-header branch rebuilds the prefix with
`fmt.Sprintf` (modelled by `intDec`) and trims it off to recover the title,
exactly as the Go code does. -/
def parseLogMessage (msg : String) : Event :=
  match parseIterationHeader msg with
  | some (iter, maxIter, tok) =>
    let taskID := trimSuf tok ":"
    let pre := "── Iteration " ++ intDec iter ++ "/" ++ intDec maxIter ++
      " ── Task #" ++ taskID ++ ": "
    let title := trimPre msg pre
    { type := EventIterationStarted, taskId := taskID,
      data := [("iteration", .int iter), ("maxIterations", .int maxIter),
               ("title", .str title)] }
  | none =>
    if strHasPre msg "Invoking " && strHasSuf msg "..." then
      { type := EventProviderInvoked, taskId := "",
        data := [("provider", .str (trimSuf (trimPre msg "Invoking ") "..."))] }
    else if msg = "Provider finished" then
      { type := EventProviderFinished, taskId := "", data := [] }
    else if strHasPre msg "Running gate: " && strHasSuf msg "  ✓" then
      { type := EventGateResult, taskId := "",
        data := [("command", .str (trimSuf (trimPre msg "Running gate: ") "  ✓")),
                 ("passed", .bool true)] }
    else if strHasPre msg "Running gate: " && strHasSuf msg "  ✗" then
      { type := EventGateResult, taskId := "",
        data := [("command", .str (trimSuf (trimPre msg "Running gate: ") "  ✗")),
                 ("passed", .bool false)] }
    else if strHasPre msg "Task #" && strHasSuf msg ": done" then
      { type := EventTaskDone, taskId := trimSuf (trimPre msg "Task #") ": done",
        data := [] }
    else if strHasPre msg "Task #" && strHasSuf msg ": failed (max iterations reached)" then
      { type := EventTaskFailed,
        taskId := trimSuf (trimPre msg "Task #") ": failed (max iterations reached)",
        data := [] }
    else if strHasPre msg "Starting with default provider: " then
      { type := EventLoopStarted, taskId := "",
        data := [("provider", .str (trimPre msg "Starting with default provider: "))] }
    else if strHasPre msg "Starting with provider: " then
      { type := EventLoopStarted, taskId := "",
        data := [("provider", .str (trimPre msg "Starting with provider: "))] }
    else
      { type := EventLogMessage, taskId := "", data := [("message", .str msg)] }

/-! ### String and scanning lemmas -/

theorem strToList_append (a b : String) : (a ++ b).toList = a.toList ++ b.toList := rfl

theorem strMk_toList (s : String) : (⟨s.toList⟩ : String) = s := rfl

theorem takeWhile_append_all {α : Type} (p : α → Bool) :
    ∀ (l r : List α), (∀ c ∈ l, p c = true) →
      (l ++ r).takeWhile p = l ++ r.takeWhile p := by
  intro l r
  induction l with
  | nil => intro _; rfl
  | cons a as ih =>
    intro h
    have ha : p a = true := h a (by simp)
    simp [List.takeWhile_cons, ha, ih (fun c hc => h c (by simp [hc]))]

theorem dropWhile_append_all {α : Type} (p : α → Bool) :
    ∀ (l r : List α), (∀ c ∈ l, p c = true) →
      (l ++ r).dropWhile p = r.dropWhile p := by
  intro l r
  induction l with
  | nil => intro _; rfl
  | cons a as ih =>
    intro h
    have ha : p a = true := h a (by simp)
    simp [List.dropWhile_cons, ha, ih (fun c hc => h c (by simp [hc]))]

theorem dropWhile_eq_self_of_takeWhile_nil {α : Type} (p : α → Bool) :
    ∀ (l : List α), l.takeWhile p = [] → l.dropWhile p = l := by
  intro l h
  cases l with
  | nil => rfl
  | cons a as =>
    by_cases ha : p a
    · simp [List.takeWhile_cons, ha] at h
    · simp [List.dropWhile_cons, ha]

theorem isPrefixOf_self_append : ∀ (l r : List Char), l.isPrefixOf (l ++ r) = true := by
  intro l r
  induction l with
  | nil => simp [List.isPrefixOf]
  | cons a as ih => simp [List.isPrefixOf, ih]

theorem isPrefixOf_append_cancel :
    ∀ (l l₁ l₂ : List Char), (l ++ l₁).isPrefixOf (l ++ l₂) = l₁.isPrefixOf l₂ := by
  intro l l₁ l₂
  induction l with
  | nil => rfl
  | cons a as ih => simpa [List.isPrefixOf] using ih


theorem isPrefixOf_cons_ne {a b : Char} (l r : List Char) (h : a ≠ b) :
    (a :: l).isPrefixOf (b :: r) = false := by
  simp [List.isPrefixOf, h]

theorem strHasPre_append (pre x : String) : strHasPre (pre ++ x) pre = true := by
  simp only [strHasPre, strToList_append]
  exact isPrefixOf_self_append _ _

theorem trimPre_append (pre x : String) : trimPre (pre ++ x) pre = x := by
  simp only [trimPre, strHasPre_append, if_true, strToList_append]
  rw [List.drop_left]
  exact strMk_toList x

theorem isSuffixOf_append_self (l s : List Char) : s.isSuffixOf (l ++ s) = true := by
  simp only [List.isSuffixOf, List.reverse_append]
  exact isPrefixOf_self_append _ _

theorem strHasSuf_append (x suf : String) : strHasSuf (x ++ suf) suf = true := by
  simp only [strHasSuf, strToList_append]
  exact isSuffixOf_append_self _ _

theorem trimSuf_append (x suf : String) : trimSuf (x ++ suf) suf = x := by
  simp only [trimSuf, strHasSuf_append, if_true, strToList_append]
  have hlen : (x.toList ++ suf.toList).length - suf.toList.length = x.toList.length := by
    simp
  rw [hlen, List.take_left]
  exact strMk_toList x

theorem strHasPre_ne_head {s pre : String} (a b : Char)
    (hs : s.toList.head? = some a) (hp : pre.toList.head? = some b) (hab : b ≠ a) :
    strHasPre s pre = false := by
  rcases hsl : s.toList with - | ⟨c, cs⟩
  · rw [hsl] at hs; simp at hs
  · rcases hpl : pre.toList with - | ⟨d, ds⟩
    · rw [hpl] at hp; simp at hp
    · rw [hsl] at hs
      rw [hpl] at hp
      have hca : c = a := by simpa using hs
      have hdb : d = b := by simpa using hp
      simp only [strHasPre, hsl, hpl]
      exact isPrefixOf_cons_ne _ _ (by rw [hdb, hca]; exact hab)

theorem strHasSuf_ne_last {s suf : String} (a b : Char)
    (hs : s.toList.getLast? = some a) (ht : suf.toList.getLast? = some b) (hab : b ≠ a) :
    strHasSuf s suf = false := by
  have hs' : s.toList.reverse.head? = some a := by rw [List.head?_reverse]; exact hs
  have ht' : suf.toList.reverse.head? = some b := by rw [List.head?_reverse]; exact ht
  rcases hsl : s.toList.reverse with - | ⟨c, cs⟩
  · rw [hsl] at hs'; simp at hs'
  · rcases htl : suf.toList.reverse with - | ⟨d, ds⟩
    · rw [htl] at ht'; simp at ht'
    · rw [hsl] at hs'
      rw [htl] at ht'
      have hca : c = a := by simpa using hs'
      have hdb : d = b := by simpa using ht'
      simp only [strHasSuf, List.isSuffixOf, hsl, htl]
      exact isPrefixOf_cons_ne _ _ (by rw [hdb, hca]; exact hab)

theorem str_ne_of_head {s t : String} (a b : Char)
    (hs : s.toList.head? = some a) (ht : t.toList.head? = some b) (hab : a ≠ b) :
    s ≠ t := by
  intro he
  rw [he, ht] at hs
  exact hab (Option.some.inj hs).symm

theorem dropLiteral_append : ∀ (l r : List Char), dropLiteral l (l ++ r) = some r := by
  intro l r
  induction l with
  | nil => rfl
  | cons a as ih => simpa [dropLiteral] using ih

theorem digitChar_isDigit {n : Nat} (h : n < 10) : (Nat.digitChar n).isDigit = true := by
  interval_cases n <;> decide

theorem digitChar_val {n : Nat} (h : n < 10) : (Nat.digitChar n).toNat - 48 = n := by
  interval_cases n <;> decide

theorem natOfDigits_append_one (l : List Char) (c : Char) :
    natOfDigits (l ++ [c]) = natOfDigits l * 10 + (c.toNat - '0'.toNat) := by
  simp [natOfDigits, List.foldl_append]

theorem natDecAux_spec :
    ∀ (fuel n : Nat), n ≤ fuel →
      natDecAux fuel n ≠ [] ∧ (∀ c ∈ natDecAux fuel n, c.isDigit = true) ∧
      natOfDigits (natDecAux fuel n) = n := by
  intro fuel
  induction fuel with
  | zero =>
    intro n hn
    have h0 : n = 0 := Nat.le_zero.mp hn
    subst h0
    exact ⟨by decide, by decide, by decide⟩
  | succ fuel ih =>
    intro n hn
    by_cases h10 : n < 10
    · refine ⟨by simp [natDecAux, h10], ?_, ?_⟩
      · intro c hc
        simp [natDecAux, h10] at hc
        subst hc
        exact digitChar_isDigit h10
      · simp [natDecAux, h10, natOfDigits, digitChar_val h10]
    · have hdiv : n / 10 ≤ fuel := by omega
      obtain ⟨hne, hdig, hval⟩ := ih (n / 10) hdiv
      refine ⟨by simp [natDecAux, h10], ?_, ?_⟩
      · intro c hc
        simp only [natDecAux, h10, if_false, List.mem_append, List.mem_singleton] at hc
        rcases hc with hc | hc
        · exact hdig c hc
        · subst hc
          exact digitChar_isDigit (by omega)
      · simp only [natDecAux, h10, if_false]
        rw [natOfDigits_append_one, hval]
        have h0n : '0'.toNat = 48 := rfl
        rw [h0n, digitChar_val (show n % 10 < 10 by omega)]
        omega

theorem natDec_spec (n : Nat) :
    natDec n ≠ [] ∧ (∀ c ∈ natDec n, c.isDigit = true) ∧ natOfDigits (natDec n) = n :=
  natDecAux_spec n n (le_refl n)

theorem intDec_ofNat (n : Nat) : intDec (n : Int) = ⟨natDec n⟩ := by
  simp [intDec, Int.toNat_ofNat]

theorem parseInt_natDec (n : Nat) (rest : List Char)
    (hrest : rest.takeWhile (fun c => c.isDigit) = []) :
    parseInt (natDec n ++ rest) = some ((n : Int), rest) := by
  obtain ⟨hne, hdig, hval⟩ := natDec_spec n
  obtain ⟨c, cs, hc⟩ := List.exists_cons_of_ne_nil hne
  have hcdig : c.isDigit = true := hdig c (by rw [hc]; simp)
  have hcm : ¬(c = '-') := fun he => by rw [he] at hcdig; exact absurd hcdig (by decide)
  have hcp : ¬(c = '+') := fun he => by rw [he] at hcdig; exact absurd hcdig (by decide)
  have hsplit : natDec n ++ rest = c :: (cs ++ rest) := by rw [hc]; rfl
  rw [hsplit]
  simp only [parseInt, if_neg hcm, if_neg hcp]
  rw [← hsplit]
  have htake : (natDec n ++ rest).takeWhile (fun c => c.isDigit) = natDec n := by
    rw [takeWhile_append_all _ _ _ hdig, hrest, List.append_nil]
  have hdrop : (natDec n ++ rest).dropWhile (fun c => c.isDigit) = rest := by
    rw [dropWhile_append_all _ _ _ hdig]
    exact dropWhile_eq_self_of_takeWhile_nil _ _ hrest
  simp [digitsNum, htake, hdrop, hne, hval]

theorem strToList_mk (l : List Char) : (⟨l⟩ : String).toList = l := rfl

theorem parseToken_exact (tok rest : List Char)
    (htok : ∀ c ∈ tok, c.isWhitespace = false) (hne : tok ≠ [])
    (hrest : rest.takeWhile (fun c => !c.isWhitespace) = []) :
    parseToken (tok ++ rest) = some (⟨tok⟩, rest) := by
  have htok' : ∀ c ∈ tok, (!c.isWhitespace) = true := by
    intro c hc
    simp [htok c hc]
  have htake : (tok ++ rest).takeWhile (fun c => !c.isWhitespace) = tok := by
    rw [takeWhile_append_all _ _ _ htok', hrest, List.append_nil]
  have hdrop : (tok ++ rest).dropWhile (fun c => !c.isWhitespace) = rest := by
    rw [dropWhile_append_all _ _ _ htok']
    exact dropWhile_eq_self_of_takeWhile_nil _ _ hrest
  simp [parseToken, htake, hdrop, hne]

theorem parseIterationHeader_round (it mx : Nat) (id title : String)
    (hid : ∀ c ∈ id.toList, c.isWhitespace = false) :
    parseIterationHeader ("── Iteration " ++ intDec (it : Int) ++ "/" ++ intDec (mx : Int) ++
        " ── Task #" ++ id ++ ": " ++ title) =
      some ((it : Int), (mx : Int), ⟨id.toList ++ [':']⟩) := by
  have h1 : "/".toList = ['/'] := rfl
  have h2 : ": ".toList = [':', ' '] := rfl
  have hmsg : ("── Iteration " ++ intDec (it : Int) ++ "/" ++ intDec (mx : Int) ++
      " ── Task #" ++ id ++ ": " ++ title).toList =
      "── Iteration ".toList ++ (natDec it ++ ('/' :: (natDec mx ++
        (" ── Task #".toList ++ ((id.toList ++ [':']) ++ (' ' :: title.toList)))))) := by
    simp [strToList_append, intDec_ofNat, strToList_mk, h1, h2, List.append_assoc]
  have hs1 := dropLiteral_append "── Iteration ".toList
    (natDec it ++ ('/' :: (natDec mx ++
      (" ── Task #".toList ++ ((id.toList ++ [':']) ++ (' ' :: title.toList))))))
  have hs2 := parseInt_natDec it
    ('/' :: (natDec mx ++
      (" ── Task #".toList ++ ((id.toList ++ [':']) ++ (' ' :: title.toList)))))
    (by simp [List.takeWhile_cons])
  have hs3 := dropLiteral_append ['/']
    (natDec mx ++ (" ── Task #".toList ++ ((id.toList ++ [':']) ++ (' ' :: title.toList))))
  have hs4 := parseInt_natDec mx
    (" ── Task #".toList ++ ((id.toList ++ [':']) ++ (' ' :: title.toList)))
    (by
      have hsp : " ── Task #".toList ++ ((id.toList ++ [':']) ++ (' ' :: title.toList)) =
          ' ' :: ("── Task #".toList ++ ((id.toList ++ [':']) ++ (' ' :: title.toList))) := rfl
      rw [hsp]
      simp [List.takeWhile_cons])
  have hs5 := dropLiteral_append " ── Task #".toList
    ((id.toList ++ [':']) ++ (' ' :: title.toList))
  have hs6 := parseToken_exact (id.toList ++ [':']) (' ' :: title.toList)
    (by
      intro c hc
      rcases List.mem_append.mp hc with hc | hc
      · exact hid c hc
      · simp at hc
        subst hc
        decide)
    (by simp)
    (by simp [List.takeWhile_cons])
  have hs3' : dropLiteral ['/'] ('/' :: (natDec mx ++ (" ── Task #".toList ++
      ((id.toList ++ [':']) ++ (' ' :: title.toList))))) =
      some (natDec mx ++ (" ── Task #".toList ++
        ((id.toList ++ [':']) ++ (' ' :: title.toList)))) := hs3
  simp only [parseIterationHeader, hmsg, h1, Option.bind_eq_bind, hs1, Option.some_bind,
    hs2, hs3', hs4, hs5, hs6, Option.pure_def]

theorem parseIterationHeader_head_none {msg : String} {c : Char} {rest : List Char}
    (h : msg.toList = c :: rest) (hc : c ≠ '─') :
    parseIterationHeader msg = none := by
  have hlit : "── Iteration ".toList = '─' :: "─ Iteration ".toList := rfl
  have hd : dropLiteral "── Iteration ".toList msg.toList = none := by
    rw [hlit, h]
    simp [dropLiteral, Ne.symm hc]
  simp only [parseIterationHeader, Option.bind_eq_bind]
  rw [hd]
  rfl

theorem plm_invoking (p : String) :
    parseLogMessage ("Invoking " ++ p ++ "...") =
      { type := EventProviderInvoked, taskId := "",
        data := [("provider", .str p)] } := by
  rw [String.append_assoc]
  have hnone := parseIterationHeader_head_none
    (show ("Invoking " ++ (p ++ "...")).toList =
      'I' :: ("nvoking ".toList ++ (p ++ "...").toList) from rfl)
    (by decide)
  have hsuf : strHasSuf ("Invoking " ++ (p ++ "...")) "..." = true := by
    rw [← String.append_assoc]
    exact strHasSuf_append _ _
  have htrim : trimSuf (trimPre ("Invoking " ++ (p ++ "...")) "Invoking ") "..." = p := by
    rw [trimPre_append]
    exact trimSuf_append _ _
  simp only [parseLogMessage, hnone, strHasPre_append, hsuf, Bool.and_self, if_true, htrim]

theorem plm_iteration (it mx : Nat) (id title : String)
    (hid : ∀ c ∈ id.toList, c.isWhitespace = false) :
    parseLogMessage ("── Iteration " ++ intDec (it : Int) ++ "/" ++ intDec (mx : Int) ++
        " ── Task #" ++ id ++ ": " ++ title) =
      { type := EventIterationStarted, taskId := id,
        data := [("iteration", .int (it : Int)), ("maxIterations", .int (mx : Int)),
                 ("title", .str title)] } := by
  have hhdr := parseIterationHeader_round it mx id title hid
  have htask : trimSuf (⟨id.toList ++ [':']⟩ : String) ":" = id := by
    have hmk : (⟨id.toList ++ [':']⟩ : String) = id ++ ":" := rfl
    rw [hmk]
    exact trimSuf_append id ":"
  have htitle : trimPre
      ("── Iteration " ++ intDec (it : Int) ++ "/" ++ intDec (mx : Int) ++
        " ── Task #" ++ id ++ ": " ++ title)
      ("── Iteration " ++ intDec (it : Int) ++ "/" ++ intDec (mx : Int) ++
        " ── Task #" ++ id ++ ": ") = title :=
    trimPre_append _ title
  simp only [parseLogMessage, hhdr, htask, htitle]

theorem plm_finished :
    parseLogMessage "Provider finished" =
      { type := EventProviderFinished, taskId := "", data := [] } := by decide

theorem plm_gate_pass (cmd : String) :
    parseLogMessage ("Running gate: " ++ cmd ++ "  ✓") =
      { type := EventGateResult, taskId := "",
        data := [("command", .str cmd), ("passed", .bool true)] } := by
  rw [String.append_assoc]
  have hnone := parseIterationHeader_head_none
    (show ("Running gate: " ++ (cmd ++ "  ✓")).toList =
      'R' :: ("unning gate: ".toList ++ (cmd ++ "  ✓").toList) from rfl)
    (by decide)
  have hInv : strHasPre ("Running gate: " ++ (cmd ++ "  ✓")) "Invoking " = false :=
    strHasPre_ne_head 'R' 'I' rfl rfl (by decide)
  have hne : ("Running gate: " ++ (cmd ++ "  ✓")) ≠ "Provider finished" :=
    str_ne_of_head 'R' 'P' rfl rfl (by decide)
  have hsuf : strHasSuf ("Running gate: " ++ (cmd ++ "  ✓")) "  ✓" = true := by
    rw [← String.append_assoc]
    exact strHasSuf_append _ _
  have htrim : trimSuf (trimPre ("Running gate: " ++ (cmd ++ "  ✓")) "Running gate: ")
      "  ✓" = cmd := by
    rw [trimPre_append]
    exact trimSuf_append _ _
  simp only [parseLogMessage, hnone, hInv, Bool.false_and, Bool.false_eq_true, if_false,
    hne, strHasPre_append, hsuf, Bool.and_self, if_true, htrim]

theorem plm_gate_fail (cmd : String) :
    parseLogMessage ("Running gate: " ++ cmd ++ "  ✗") =
      { type := EventGateResult, taskId := "",
        data := [("command", .str cmd), ("passed", .bool false)] } := by
  rw [String.append_assoc]
  have hnone := parseIterationHeader_head_none
    (show ("Running gate: " ++ (cmd ++ "  ✗")).toList =
      'R' :: ("unning gate: ".toList ++ (cmd ++ "  ✗").toList) from rfl)
    (by decide)
  have hInv : strHasPre ("Running gate: " ++ (cmd ++ "  ✗")) "Invoking " = false :=
    strHasPre_ne_head 'R' 'I' rfl rfl (by decide)
  have hne : ("Running gate: " ++ (cmd ++ "  ✗")) ≠ "Provider finished" :=
    str_ne_of_head 'R' 'P' rfl rfl (by decide)
  have hlast : ("Running gate: " ++ (cmd ++ "  ✗")).toList.getLast? = some '✗' := by
    rw [strToList_append, List.getLast?_append, strToList_append, List.getLast?_append]
    rfl
  have hsv : strHasSuf ("Running gate: " ++ (cmd ++ "  ✗")) "  ✓" = false :=
    strHasSuf_ne_last _ _ hlast rfl (by decide)
  have hsuf : strHasSuf ("Running gate: " ++ (cmd ++ "  ✗")) "  ✗" = true := by
    rw [← String.append_assoc]
    exact strHasSuf_append _ _
  have htrim : trimSuf (trimPre ("Running gate: " ++ (cmd ++ "  ✗")) "Running gate: ")
      "  ✗" = cmd := by
    rw [trimPre_append]
    exact trimSuf_append _ _
  simp only [parseLogMessage, hnone, hInv, Bool.false_and, Bool.false_eq_true, if_false,
    hne, strHasPre_append, hsv, hsuf, Bool.true_and, Bool.and_self, if_true, htrim]

theorem plm_task_done (id : String) :
    parseLogMessage ("Task #" ++ id ++ ": done") =
      { type := EventTaskDone, taskId := id, data := [] } := by
  rw [String.append_assoc]
  have hnone := parseIterationHeader_head_none
    (show ("Task #" ++ (id ++ ": done")).toList =
      'T' :: ("ask #".toList ++ (id ++ ": done").toList) from rfl)
    (by decide)
  have hInv : strHasPre ("Task #" ++ (id ++ ": done")) "Invoking " = false :=
    strHasPre_ne_head 'T' 'I' rfl rfl (by decide)
  have hne : ("Task #" ++ (id ++ ": done")) ≠ "Provider finished" :=
    str_ne_of_head 'T' 'P' rfl rfl (by decide)
  have hRun : strHasPre ("Task #" ++ (id ++ ": done")) "Running gate: " = false :=
    strHasPre_ne_head 'T' 'R' rfl rfl (by decide)
  have hsuf : strHasSuf ("Task #" ++ (id ++ ": done")) ": done" = true := by
    rw [← String.append_assoc]
    exact strHasSuf_append _ _
  have htrim : trimSuf (trimPre ("Task #" ++ (id ++ ": done")) "Task #") ": done" = id := by
    rw [trimPre_append]
    exact trimSuf_append _ _
  simp only [parseLogMessage, hnone, hInv, hRun, Bool.false_and, Bool.false_eq_true,
    if_false, hne, strHasPre_append, hsuf, Bool.and_self, if_true, htrim]

theorem plm_task_failed (id : String) :
    parseLogMessage ("Task #" ++ id ++ ": failed (max iterations reached)") =
      { type := EventTaskFailed, taskId := id, data := [] } := by
  rw [String.append_assoc]
  have hnone := parseIterationHeader_head_none
    (show ("Task #" ++ (id ++ ": failed (max iterations reached)")).toList =
      'T' :: ("ask #".toList ++ (id ++ ": failed (max iterations reached)").toList) from rfl)
    (by decide)
  have hInv : strHasPre ("Task #" ++ (id ++ ": failed (max iterations reached)"))
      "Invoking " = false :=
    strHasPre_ne_head 'T' 'I' rfl rfl (by decide)
  have hne : ("Task #" ++ (id ++ ": failed (max iterations reached)")) ≠ "Provider finished" :=
    str_ne_of_head 'T' 'P' rfl rfl (by decide)
  have hRun : strHasPre ("Task #" ++ (id ++ ": failed (max iterations reached)"))
      "Running gate: " = false :=
    strHasPre_ne_head 'T' 'R' rfl rfl (by decide)
  have hlast : ("Task #" ++ (id ++ ": failed (max iterations reached)")).toList.getLast? =
      some ')' := by
    rw [strToList_append, List.getLast?_append, strToList_append, List.getLast?_append]
    rfl
  have hdone : strHasSuf ("Task #" ++ (id ++ ": failed (max iterations reached)"))
      ": done" = false :=
    strHasSuf_ne_last _ _ hlast rfl (by decide)
  have hsuf : strHasSuf ("Task #" ++ (id ++ ": failed (max iterations reached)"))
      ": failed (max iterations reached)" = true := by
    rw [← String.append_assoc]
    exact strHasSuf_append _ _
  have htrim : trimSuf
      (trimPre ("Task #" ++ (id ++ ": failed (max iterations reached)")) "Task #")
      ": failed (max iterations reached)" = id := by
    rw [trimPre_append]
    exact trimSuf_append _ _
  simp only [parseLogMessage, hnone, hInv, hRun, Bool.false_and, Bool.false_eq_true,
    if_false, hne, strHasPre_append, hdone, hsuf, Bool.true_and, Bool.and_self,
    if_true, htrim]

theorem plm_start_default (p : String) :
    parseLogMessage ("Starting with default provider: " ++ p) =
      { type := EventLoopStarted, taskId := "",
        data := [("provider", .str p)] } := by
  have hnone := parseIterationHeader_head_none
    (show ("Starting with default provider: " ++ p).toList =
      'S' :: ("tarting with default provider: ".toList ++ p.toList) from rfl)
    (by decide)
  have hInv : strHasPre ("Starting with default provider: " ++ p) "Invoking " = false :=
    strHasPre_ne_head 'S' 'I' rfl rfl (by decide)
  have hne : ("Starting with default provider: " ++ p) ≠ "Provider finished" :=
    str_ne_of_head 'S' 'P' rfl rfl (by decide)
  have hRun : strHasPre ("Starting with default provider: " ++ p) "Running gate: " = false :=
    strHasPre_ne_head 'S' 'R' rfl rfl (by decide)
  have hTask : strHasPre ("Starting with default provider: " ++ p) "Task #" = false :=
    strHasPre_ne_head 'S' 'T' rfl rfl (by decide)
  simp only [parseLogMessage, hnone, hInv, hRun, hTask, Bool.false_and, Bool.false_eq_true,
    if_false, hne, strHasPre_append, if_true, trimPre_append]

theorem plm_start_plain (p : String) :
    parseLogMessage ("Starting with provider: " ++ p) =
      { type := EventLoopStarted, taskId := "",
        data := [("provider", .str p)] } := by
  have hnone := parseIterationHeader_head_none
    (show ("Starting with provider: " ++ p).toList =
      'S' :: ("tarting with provider: ".toList ++ p.toList) from rfl)
    (by decide)
  have hInv : strHasPre ("Starting with provider: " ++ p) "Invoking " = false :=
    strHasPre_ne_head 'S' 'I' rfl rfl (by decide)
  have hne : ("Starting with provider: " ++ p) ≠ "Provider finished" :=
    str_ne_of_head 'S' 'P' rfl rfl (by decide)
  have hRun : strHasPre ("Starting with provider: " ++ p) "Running gate: " = false :=
    strHasPre_ne_head 'S' 'R' rfl rfl (by decide)
  have hTask : strHasPre ("Starting with provider: " ++ p) "Task #" = false :=
    strHasPre_ne_head 'S' 'T' rfl rfl (by decide)
  have hDef : strHasPre ("Starting with provider: " ++ p)
      "Starting with default provider: " = false := by
    have hm : ("Starting with provider: " ++ p).toList =
        "Starting with ".toList ++ ("provider: ".toList ++ p.toList) := rfl
    have hl : "Starting with default provider: ".toList =
        "Starting with ".toList ++ "default provider: ".toList := rfl
    simp only [strHasPre, hm, hl, isPrefixOf_append_cancel]
    have hd : "default provider: ".toList = 'd' :: "efault provider: ".toList := rfl
    have hp2 : "provider: ".toList ++ p.toList =
        'p' :: ("rovider: ".toList ++ p.toList) := rfl
    rw [hd, hp2]
    exact isPrefixOf_cons_ne _ _ (by decide)
  simp only [parseLogMessage, hnone, hInv, hRun, hTask, hDef, Bool.false_and,
    Bool.false_eq_true, if_false, hne, strHasPre_append, if_true, trimPre_append]

theorem plm_fallback (msg : String)
    (h0 : parseIterationHeader msg = none)
    (h1 : (strHasPre msg "Invoking " && strHasSuf msg "...") = false)
    (h2 : msg ≠ "Provider finished")
    (h3 : (strHasPre msg "Running gate: " && strHasSuf msg "  ✓") = false)
    (h4 : (strHasPre msg "Running gate: " && strHasSuf msg "  ✗") = false)
    (h5 : (strHasPre msg "Task #" && strHasSuf msg ": done") = false)
    (h6 : (strHasPre msg "Task #" &&
      strHasSuf msg ": failed (max iterations reached)") = false)
    (h7 : strHasPre msg "Starting with default provider: " = false)
    (h8 : strHasPre msg "Starting with provider: " = false) :
    parseLogMessage msg =
      { type := EventLogMessage, taskId := "", data := [("message", .str msg)] } := by
  simp only [parseLogMessage, h0, h1, h2, h3, h4, h5, h6, h7, h8,
    Bool.false_eq_true, if_false]

/-- C7: the translator maps each of the engine's emitted textual shapes to its
typed event with the embedded fields recovered (iteration and ceiling numbers,
task id — any id without whitespace — title, provider name, gate command,
pass/fail), and maps any message matching none of the recognized shapes to a
`log_message` event carrying the raw text verbatim; the function is
deterministic by construction. -/
theorem C7_theorem :
    (∀ (it mx : Nat) (id title : String), (∀ c ∈ id.toList, c.isWhitespace = false) →
      parseLogMessage ("── Iteration " ++ intDec (it : Int) ++ "/" ++ intDec (mx : Int) ++
          " ── Task #" ++ id ++ ": " ++ title) =
        { type := EventIterationStarted, taskId := id,
          data := [("iteration", .int (it : Int)), ("maxIterations", .int (mx : Int)),
                   ("title", .str title)] }) ∧
    (∀ p : String, parseLogMessage ("Invoking " ++ p ++ "...") =
      { type := EventProviderInvoked, taskId := "", data := [("provider", .str p)] }) ∧
    (parseLogMessage "Provider finished" =
      { type := EventProviderFinished, taskId := "", data := [] }) ∧
    (∀ cmd : String, parseLogMessage ("Running gate: " ++ cmd ++ "  ✓") =
      { type := EventGateResult, taskId := "",
        data := [("command", .str cmd), ("passed", .bool true)] }) ∧
    (∀ cmd : String, parseLogMessage ("Running gate: " ++ cmd ++ "  ✗") =
      { type := EventGateResult, taskId := "",
        data := [("command", .str cmd), ("passed", .bool false)] }) ∧
    (∀ id : String, parseLogMessage ("Task #" ++ id ++ ": done") =
      { type := EventTaskDone, taskId := id, data := [] }) ∧
    (∀ id : String, parseLogMessage ("Task #" ++ id ++ ": failed (max iterations reached)") =
      { type := EventTaskFailed, taskId := id, data := [] }) ∧
    (∀ p : String, parseLogMessage ("Starting with default provider: " ++ p) =
      { type := EventLoopStarted, taskId := "", data := [("provider", .str p)] }) ∧
    (∀ p : String, parseLogMessage ("Starting with provider: " ++ p) =
      { type := EventLoopStarted, taskId := "", data := [("provider", .str p)] }) ∧
    (∀ msg : String, parseIterationHeader msg = none →
      (strHasPre msg "Invoking " && strHasSuf msg "...") = false →
      msg ≠ "Provider finished" →
      (strHasPre msg "Running gate: " && strHasSuf msg "  ✓") = false →
      (strHasPre msg "Running gate: " && strHasSuf msg "  ✗") = false →
      (strHasPre msg "Task #" && strHasSuf msg ": done") = false →
      (strHasPre msg "Task #" && strHasSuf msg ": failed (max iterations reached)") = false →
      strHasPre msg "Starting with default provider: " = false →
      strHasPre msg "Starting with provider: " = false →
      parseLogMessage msg =
        { type := EventLogMessage, taskId := "", data := [("message", .str msg)] }) ∧
    (parseLogMessage "Provider error: context canceled" =
      { type := EventLogMessage, taskId := "",
        data := [("message", .str "Provider error: context canceled")] }) :=
  ⟨plm_iteration, plm_invoking, plm_finished, plm_gate_pass, plm_gate_fail,
   plm_task_done, plm_task_failed, plm_start_default, plm_start_plain,
   plm_fallback, by decide⟩

/-- C7 witness: the round trip at the messages of `TestEventLoggerParsing`,
and the fallback at the summary line. -/
theorem C7_theorem_witness :
    parseLogMessage ("── Iteration " ++ intDec ((2 : Nat) : Int) ++ "/" ++
        intDec ((10 : Nat) : Int) ++ " ── Task #" ++ "3" ++ ": " ++ "Add login endpoint") =
      { type := EventIterationStarted, taskId := "3",
        data := [("iteration", .int ((2 : Nat) : Int)),
                 ("maxIterations", .int ((10 : Nat) : Int)),
                 ("title", .str "Add login endpoint")] } ∧
    parseLogMessage "── Summary ──" =
      { type := EventLogMessage, taskId := "",
        data := [("message", .str "── Summary ──")] } :=
  ⟨C7_theorem.1 2 10 "3" "Add login endpoint" (by decide),
   C7_theorem.2.2.2.2.2.2.2.2.2.1 "── Summary ──" (by decide) (by decide) (by decide)
     (by decide) (by decide) (by decide) (by decide) (by decide) (by decide)⟩

end DoMore
